import Mathlib

/-!
Verification development for the uaiso parsing core: a shallow embedding of
the lexer cursor and shared sub-lexers (src/Parsing/Lexer.cpp) and of the
Python recursive-descent parser (src/Python/PyParser.cpp), together with
theorems settling the specification claims about them.

Conventions of the embedding:
- C++ raw bytes (`char`) are modelled as `Nat` byte values; the buffer
  `[buffStart, eof)` is a `List Nat` and the cursor `curr_` is an offset
  from `buffStart`, so the invariant `buffStart <= curr_ <= eof_` reads
  `0 <= curr <= buf.length`.
- `UAISO_ASSERT(cond, return r)` is modelled as an early return of `r`
  when `cond` fails, mirroring the macro's failure action.
- Null AST pointers are `Option Ast` child slots; `AstList` children are
  `List Ast`, and appending a null pointer to a list leaves it unchanged
  (`pyAddToList`); delimiter locations stored inside lists are not modelled.
- The parser's token stream is a `List Tok`; `ahead_` is the head (or `EOP`
  once exhausted), and `lastLoc_` / token locations are modelled by the
  index of the token in the stream, which is what identifies names and
  literals in the resulting tree.
- Every mutually recursive parse function consumes `fuel`; `none` means the
  fuel ran out, and all claims about parser runs are stated on `some`
  results or at concrete inputs with enough fuel.
-/

/-- Diagnostic kinds tracked through `ParsingContext::trackReport`. -/
inductive Diag where
  | UnexpectedToken
  | NameRequired
  | UnterminatedString
  | UnknownEscape
  | InvalidNumericDigit
deriving DecidableEq, Repr

/-- Token kinds (the subset of the `Token` enum reachable from the embedded
code paths of `PyParser.cpp` and `Lexer.cpp`). -/
inductive Tok where
  | EOP
  | INVALID
  | NEWLINE
  | INDENT
  | DEDENT
  | LPAREN
  | RPAREN
  | LBRACKET
  | RBRACKET
  | LBRACE
  | RBRACE
  | COMMA
  | COLON
  | SEMICOLON
  | DOT
  | DOT_DOT_DOT
  | BACKTICK
  | AT_SYMBOL
  | PLUS
  | MINUS
  | STAR
  | SLASH
  | SLASH_SLASH
  | PERCENT
  | STAR_STAR
  | PIPE
  | CARET
  | AMPER
  | TILDE
  | LESS_LESS
  | GREATER_GREATER
  | LESS
  | GREATER
  | EQUAL_EQUAL
  | GREATER_EQUAL
  | LESS_EQUAL
  | LESS_GREATER
  | EXCLAM_EQUAL
  | EQUAL
  | PLUS_EQUAL
  | MINUS_EQUAL
  | STAR_EQUAL
  | SLASH_EQUAL
  | PERCENT_EQUAL
  | AMPER_EQUAL
  | PIPE_EQUAL
  | CARET_EQUAL
  | LESS_LESS_EQUAL
  | GREATER_GREATER_EQUAL
  | STAR_STAR_EQUAL
  | SLASH_SLASH_EQUAL
  | IDENTIFIER
  | INTEGER_LITERAL
  | FLOAT_LITERAL
  | STRING_LITERAL
  | NULL_LITERAL
  | TRUE_LITERAL
  | FALSE_LITERAL
  | IF
  | ELIF
  | ELSE
  | WHILE
  | FOR
  | TRY
  | CATCH
  | FINALLY
  | WITH
  | FUNC
  | CLASS
  | LAMBDA
  | PRINT
  | DELETE
  | PASS
  | IMPORT
  | FROM
  | GLOBAL
  | EXEC
  | ASSERT
  | BREAK
  | CONTINUE
  | RETURN
  | THROW
  | YIELD
  | AS
  | IN
  | IS
  | NOT
  | AND
  | OR
deriving DecidableEq, Repr

/-- The lexer cursor: `buff_`/`curr_`/`eof_` of `Lexer`, with `buff_` as the
byte list and `curr_` as the offset of the cursor from the buffer start
(`eof_` is `buf.length`). -/
structure LexCursor where
  buf : List Nat
  curr : Nat
deriving DecidableEq, Repr

/-- Embeds `Lexer::setBuffer(buff, length)`: binds the cursor to the buffer
and resets the position to the start. -/
def setBuffer (bytes : List Nat) : LexCursor :=
  { buf := bytes, curr := 0 }

/-- Embeds `Lexer::peekChar(dist)`: the character `dist` ahead, or the 0
sentinel when `curr_ + dist >= eof_`. -/
def peekChar (c : LexCursor) (dist : Nat) : Nat :=
  if c.buf.length ≤ c.curr + dist then 0
  else c.buf.getD (c.curr + dist) 0

/-- Embeds `Lexer::consumeChar(dist)`: `UAISO_ASSERT(peekChar(dist), return)`
leaves the cursor unchanged when the consumed character does not exist;
otherwise the cursor advances by `1 + dist`. -/
def consumeChar (c : LexCursor) (dist : Nat) : LexCursor :=
  if peekChar c dist = 0 then c
  else { c with curr := c.curr + 1 + dist }

/-- Embeds `Lexer::consumeCharPeekNext(dist)`: advance, then peek 0. -/
def consumeCharPeekNext (c : LexCursor) (dist : Nat) : LexCursor × Nat :=
  let c2 := consumeChar c dist
  (c2, peekChar c2 0)

/-- C-locale `isdigit` on a byte. -/
def isDigitByte (c : Nat) : Bool :=
  decide (48 ≤ c ∧ c ≤ 57)

/-- C-locale `isxdigit` on a byte. -/
def isXDigitByte (c : Nat) : Bool :=
  isDigitByte c || decide (65 ≤ c ∧ c ≤ 70) || decide (97 ≤ c ∧ c ≤ 102)

/-- C-locale `iscntrl` on a byte. -/
def isCntrlByte (c : Nat) : Bool :=
  decide (c ≤ 31) || decide (c = 127)

/-- C-locale `isprint` on a byte. -/
def isPrintByte (c : Nat) : Bool :=
  decide (32 ≤ c ∧ c ≤ 126)

/-- The per-language capability object consumed by the shared sub-lexers:
the numeric-literal predicates of the C++ `Syn`-`tax` class (the concrete
Python variant is outside the given sources, so instances are only test
harnesses for the generic functions). -/
structure LangTraits where
  isOctalPrefix : Nat → Bool
  isHexPrefix : Nat → Bool
  isBinPrefix : Nat → Bool
  isExponent : Nat → Bool

/-- Termination measure for the sub-lexer loops: remaining buffer bytes
(doubled) plus one when the lookahead character is nonzero. -/
def lexMeasure (cur : LexCursor) (ch : Nat) : Nat :=
  2 * (cur.buf.length - cur.curr) + (if ch = 0 then 0 else 1)

theorem consumeCharPeekNext_cases (cur : LexCursor) :
    ((consumeCharPeekNext cur 0).1 = cur ∧ (consumeCharPeekNext cur 0).2 = 0)
    ∨ (cur.curr < cur.buf.length ∧ (consumeCharPeekNext cur 0).1.curr = cur.curr + 1
        ∧ (consumeCharPeekNext cur 0).1.buf = cur.buf) := by
  by_cases h : peekChar cur 0 = 0
  · left
    simp [consumeCharPeekNext, consumeChar, h]
  · right
    have hlt : cur.curr < cur.buf.length := by
      by_contra hge
      exact h (by simp [peekChar]; omega)
    simp [consumeCharPeekNext, consumeChar, h, hlt]

theorem lexMeasure_step_le (cur : LexCursor) (ch : Nat) :
    lexMeasure (consumeCharPeekNext cur 0).1 (consumeCharPeekNext cur 0).2
      ≤ lexMeasure cur ch := by
  rcases consumeCharPeekNext_cases cur with ⟨h1, h2⟩ | ⟨h1, h2, h3⟩
  · rw [h1, h2]
    unfold lexMeasure
    split <;> omega
  · unfold lexMeasure
    rw [h2, h3]
    split <;> omega

theorem lexMeasure_step_lt (cur : LexCursor) (ch : Nat) (h : ch ≠ 0) :
    lexMeasure (consumeCharPeekNext cur 0).1 (consumeCharPeekNext cur 0).2
      < lexMeasure cur ch := by
  rcases consumeCharPeekNext_cases cur with ⟨h1, h2⟩ | ⟨h1, h2, h3⟩
  · rw [h1, h2]
    unfold lexMeasure
    simp [h]
  · unfold lexMeasure
    rw [h2, h3]
    split <;> omega

theorem lexMeasure_step2_lt (cur : LexCursor) (ch : Nat) (h : ch ≠ 0) :
    lexMeasure (consumeCharPeekNext (consumeCharPeekNext cur 0).1 0).1
               (consumeCharPeekNext (consumeCharPeekNext cur 0).1 0).2
      < lexMeasure cur ch :=
  lt_of_le_of_lt (lexMeasure_step_le (consumeCharPeekNext cur 0).1
                    (consumeCharPeekNext cur 0).2)
                 (lexMeasure_step_lt cur ch h)

/-- The while loop of `Lexer::lexStrLit`: advance until the matching quote
or the 0 sentinel; a `\` escape consumes the following character.  Both
error sites of the source are `// TODO: Error ...` comments, so the loop
reports nothing: the escape check (`!iscntrl && !isprint` after the escape)
and the bare-newline check (`ch == '\n' && !mayBreak`) have no effect. -/
def lexStrLitLoop (quote : Nat) (mayBreak : Bool) (cur : LexCursor) (ch : Nat) :
    LexCursor × Nat :=
  if ch = 0 ∨ ch = quote then (cur, ch)
  else if ch = 92 then
    -- Escape: `ch = consumeCharPeekNext();` then the UnknownEscape TODO site.
    let s1 := consumeCharPeekNext cur 0
    let s2 := consumeCharPeekNext s1.1 0
    lexStrLitLoop quote mayBreak s2.1 s2.2
  else
    -- The UnterminatedString TODO site guards `ch == '\n' && !mayBreak` here.
    let s2 := consumeCharPeekNext cur 0
    lexStrLitLoop quote mayBreak s2.1 s2.2
termination_by lexMeasure cur ch
decreasing_by
  · exact lexMeasure_step2_lt cur ch (by tauto)
  · exact lexMeasure_step_lt cur ch (by tauto)

/-- Embeds `Lexer::lexStrLit(ch, quote, mayBreak, syntax)`: the scan loop
followed by the single `return TK_STRING_LITERAL`.  The diagnostic list of
the owning context is threaded to make observable that the function never
reports (its error sites are TODO comments). -/
def lexStrLit (cur : LexCursor) (ch : Nat) (quote : Nat) (mayBreak : Bool)
    (diags : List Diag) : LexCursor × Nat × List Diag × Tok :=
  let r := lexStrLitLoop quote mayBreak cur ch
  (r.1, r.2, diags, Tok.STRING_LITERAL)

/-- A `while (ch && p(ch))` scan over the buffer (the octal, hex and binary
digit loops of `Lexer::lexNumLit`). -/
def lexScan (p : Nat → Bool) (cur : LexCursor) (ch : Nat) : LexCursor × Nat :=
  if ch = 0 ∨ ¬ p ch then (cur, ch)
  else
    let s := consumeCharPeekNext cur 0
    lexScan p s.1 s.2
termination_by lexMeasure cur ch
decreasing_by
  exact lexMeasure_step_lt cur ch (by tauto)

/-- The trailing digits/dot/exponent loop of `Lexer::lexNumLit`: any
non-digit contributor promotes the token to `FLOAT_LITERAL`; after an
exponent marker an optional sign is also consumed. -/
def lexNumTail (syn : LangTraits) (cur : LexCursor) (ch : Nat) (tk : Tok) :
    LexCursor × Nat × Tok :=
  if ch = 0 ∨ ¬ (isDigitByte ch || ch = 46 || syn.isExponent ch) then (cur, ch, tk)
  else
    let tk2 := if isDigitByte ch then tk else Tok.FLOAT_LITERAL
    let prev := ch
    let s1 := consumeCharPeekNext cur 0
    if syn.isExponent prev ∧ (s1.2 = 43 ∨ s1.2 = 45) then
      let s2 := consumeCharPeekNext s1.1 0
      lexNumTail syn s2.1 s2.2 tk2
    else
      lexNumTail syn s1.1 s1.2 tk2
termination_by lexMeasure cur ch
decreasing_by
  · exact lexMeasure_step2_lt cur ch (by tauto)
  · exact lexMeasure_step_lt cur ch (by tauto)

/-- Embeds `Lexer::lexNumLit(ch, syntax)`.  Each prefixed form requires at
least one digit of its kind after the prefix, otherwise the token is
`INVALID`; every error site of the source is a `// TODO: Error` comment,
so the threaded diagnostic list is never appended to. -/
def lexNumLit (syn : LangTraits) (cur : LexCursor) (ch : Nat) (diags : List Diag) :
    LexCursor × Nat × List Diag × Tok :=
  if ¬ (isDigitByte ch || ch = 46) then (cur, ch, diags, Tok.INVALID)
  else if ch = 48 then
    let s := consumeCharPeekNext cur 0
    if syn.isOctalPrefix s.2 then
      let s2 := consumeCharPeekNext s.1 0
      if ¬ (48 ≤ s2.2 ∧ s2.2 < 56) then (s2.1, s2.2, diags, Tok.INVALID)
      else
        let s3 := lexScan (fun c => decide (48 ≤ c ∧ c < 56)) s2.1 s2.2
        (s3.1, s3.2, diags, Tok.INTEGER_LITERAL)
    else if syn.isHexPrefix s.2 then
      let s2 := consumeCharPeekNext s.1 0
      if ¬ isXDigitByte s2.2 then (s2.1, s2.2, diags, Tok.INVALID)
      else
        let s3 := lexScan isXDigitByte s2.1 s2.2
        (s3.1, s3.2, diags, Tok.INTEGER_LITERAL)
    else if syn.isBinPrefix s.2 then
      let s2 := consumeCharPeekNext s.1 0
      if ¬ (s2.2 = 48 ∨ s2.2 = 49) then (s2.1, s2.2, diags, Tok.INVALID)
      else
        let s3 := lexScan (fun c => decide (c = 48 ∨ c = 49)) s2.1 s2.2
        (s3.1, s3.2, diags, Tok.INTEGER_LITERAL)
    else
      let r := lexNumTail syn s.1 s.2 Tok.INTEGER_LITERAL
      (r.1, r.2.1, diags, r.2.2)
  else
    let r := lexNumTail syn cur ch Tok.INTEGER_LITERAL
    (r.1, r.2.1, diags, r.2.2)

/-- A test-harness capability instance with Python-style numeric prefixes
(`0o`/`0O`, `0x`/`0X`, `0b`/`0B`, exponents `e`/`E`); used only to evaluate
the generic sub-lexers at concrete inputs. -/
def pyLikeTraits : LangTraits where
  isOctalPrefix c := decide (c = 111 ∨ c = 79)
  isHexPrefix c := decide (c = 120 ∨ c = 88)
  isBinPrefix c := decide (c = 98 ∨ c = 66)
  isExponent c := decide (c = 101 ∨ c = 69)

/-- Binary AST node classes produced by the parser (`BitOrExprAst`,
`BitXorExprAst`, `BitAndExprAst`, `ShiftExprAst`, `AddExprAst`,
`SubExprAst`, `MulExprAst`, `DivExprAst` (for both `/` and `//`),
`ModExprAst`, `PowerExprAst`, `LogicOrExprAst`, `LogicAndExprAst`,
`RelExprAst`, `InExprAst`, `IsExprAst`, `ConcatExprAst`). -/
inductive BinKind where
  | bitOr
  | bitXor
  | bitAnd
  | shift
  | add
  | sub
  | mul
  | div
  | mod
  | power
  | logicOr
  | logicAnd
  | rel
  | inRel
  | isRel
  | concat
deriving DecidableEq, Repr

/-- Unary AST node classes (`PlusExprAst`, `MinusExprAst`, `BitCompExprAst`,
`LogicNotExprAst`). -/
inductive UnaKind where
  | plus
  | minus
  | bitCompl
  | logicNot
deriving DecidableEq, Repr

/-- The AST node family built by `PyParser`.  Child pointers that may be
null are `Option Ast`; `AstList` children are `List Ast`.  Only the
locations that identify a lexeme (name and literal locations, as indices
into the token stream) are kept; purely decorative delimiter/keyword
locations are not modelled. -/
inductive Ast where
  | simpleName (nameLoc : Nat)
  | nestedName (names : List Ast)
  | genName (loc : Nat)
  | identExpr (name : Option Ast)
  | numLit (litLoc : Nat)
  | strLit (litLoc : Nat)
  | nullLit (litLoc : Nat)
  | boolLit (litLoc : Nat)
  | bin (k : BinKind) (expr1 expr2 : Option Ast)
  | una (k : UnaKind) (expr : Option Ast)
  | assignExpr (expr1s expr2s : List Ast)
  | condExpr (yes cond no : Option Ast)
  | callExpr (base : Option Ast) (args : List Ast)
  | arraySlice (base range : Option Ast)
  | memberAccess (expr : Option Ast) (name : Option Ast)
  | subrange (low hi mx : Option Ast)
  | arrayInit (inits : List Ast)
  | tupleLit (inits : List Ast)
  | wrapped (expr : Option Ast)
  | yieldExpr (exprs : List Ast)
  | listCompre (expr : Option Ast) (gens : List Ast)
  | generator (patterns : List Ast) (range : Option Ast) (filters : List Ast)
  | designate (id val : Option Ast)
  | unpackExpr (expr : Option Ast)
  | funcLit (param : Option Ast) (stmt : Option Ast)
  | printExpr (exprs : List Ast)
  | delExpr (exprs : List Ast)
  | assertExpr (expr : Option Ast)
  | exprStmt (exprs : List Ast)
  | blockStmt (stmts : List Ast)
  | ifStmt (cond : Option Ast) (thenStmt notThen : Option Ast)
  | whileStmt (cond : Option Ast) (body : Option Ast)
  | foreachStmt (decl : Option Ast) (expr : Option Ast) (body : Option Ast)
  | tryStmt (body : Option Ast) (catchs : List Ast) (final : Option Ast)
  | catchClause (decl : Option Ast) (body : Option Ast)
  | finallyClause (body : Option Ast)
  | withStmt (exprs : List Ast) (body : Option Ast)
  | declStmt (decl : Option Ast)
  | emptyStmt
  | continueStmt
  | breakStmt
  | yieldStmt (expr : Option Ast)
  | throwStmt (expr : Option Ast)
  | returnStmt (exprs : List Ast)
  | evalStmt (expr : Option Ast)
  | importClause (modules : List Ast)
  | importModule (expr : Option Ast) (localName : Option Ast) (members : List Ast)
  | importMember (actualName nickName : Option Ast)
  | varGroup (decls : List Ast)
  | varDecl (name : Option Ast)
  | recordDecl (name : Option Ast) (bases : List Ast) (proto : Option Ast)
  | funcDecl (name : Option Ast) (param : Option Ast) (body : Option Ast)
  | baseDecl (name : Option Ast)
  | paramClause (decls : List Ast)
  | paramGroup (spec : Option Ast) (decls : List Ast)
  | namedSpec (name : Option Ast)
  | inferredSpec
  | param (name : Option Ast) (defaultArg : Option Ast) (variadic : Bool)
  | program (stmts : List Ast)

/-- The parser's mutable state: the remaining token stream (`ahead_` is its
head), the index of the next token (its location), `lastLoc_`, and the
context's diagnostic list (`trackReport` appends). -/
structure PSt where
  toks : List Tok
  pos : Nat
  lastLoc : Nat
  diags : List Diag

/-- A fresh parse state over a token stream (fresh `ParsingContext`). -/
def pyInit (toks : List Tok) : PSt :=
  { toks := toks, pos := 0, lastLoc := 0, diags := [] }

/-- The lookahead token `ahead_`: head of the stream, `EOP` once empty. -/
def pyAhead (st : PSt) : Tok :=
  st.toks.headD .EOP

/-- Embeds `PyParser::consumeToken()`: a no-op after `EOP`; otherwise stamps
`lastLoc_` with the location of the token being left behind and advances. -/
def pyConsume (st : PSt) : PSt :=
  if pyAhead st = .EOP then st
  else { st with toks := st.toks.tail, pos := st.pos + 1, lastLoc := st.pos }

/-- Embeds `ParsingContext::trackReport(kind, loc)` (kinds only). -/
def pyTrackReport (d : Diag) (st : PSt) : PSt :=
  { st with diags := st.diags ++ [d] }

/-- Embeds `PyParser::failMatch(consume)`: optionally consume, then report
`UnexpectedToken` at `lastLoc_`. -/
def pyFailMatch (con : Bool) (st : PSt) : PSt :=
  pyTrackReport .UnexpectedToken (if con then pyConsume st else st)

/-- Embeds `PyParser::maybeConsume(tk)`. -/
def pyMaybeConsume (tk : Tok) (st : PSt) : Bool × PSt :=
  if pyAhead st = tk then (true, pyConsume st) else (false, st)

/-- Short-circuit `maybeConsume(t1) || maybeConsume(t2)`. -/
def pyMaybeConsume2 (t1 t2 : Tok) (st : PSt) : Bool × PSt :=
  let r := pyMaybeConsume t1 st
  if r.1 then r else pyMaybeConsume t2 r.2

/-- Embeds `PyParser::match(tk)`: consume unconditionally; report
`UnexpectedToken` and return false when the consumed token was not `tk`. -/
def pyMatchTok (tk : Tok) (st : PSt) : Bool × PSt :=
  let actual := pyAhead st
  let st2 := pyConsume st
  if actual = tk then (true, st2) else (false, pyFailMatch false st2)

/-- Embeds `PyParser::skipTo(tk)`: consume until `ahead_` is `tk` or `EOP`
(written structurally on the stream so it evaluates definitionally). -/
def pySkipToAux (tk : Tok) : List Tok → Nat → Nat → List Diag → PSt
  | [], pos, lastLoc, diags => { toks := [], pos := pos, lastLoc := lastLoc, diags := diags }
  | t :: rest, pos, lastLoc, diags =>
    if t = tk ∨ t = .EOP then { toks := t :: rest, pos := pos, lastLoc := lastLoc, diags := diags }
    else pySkipToAux tk rest (pos + 1) pos diags

def pySkipTo (tk : Tok) (st : PSt) : PSt :=
  pySkipToAux tk st.toks st.pos st.lastLoc st.diags

/-- Embeds `addToList(list, ast)` on an `AstList`: appending a null pointer
leaves the list unchanged. -/
def pyAddToList (l : List Ast) (a : Option Ast) : List Ast :=
  match a with
  | none => l
  | some x => l ++ [x]

/-- Embeds `PyParser::isAtomAhead()`. -/
def pyIsAtomAhead (st : PSt) : Bool :=
  match pyAhead st with
  | .LPAREN | .LBRACKET | .LBRACE | .BACKTICK | .IDENTIFIER | .INTEGER_LITERAL
  | .FLOAT_LITERAL | .STRING_LITERAL | .NULL_LITERAL | .TRUE_LITERAL | .FALSE_LITERAL => true
  | _ => false

/-- Embeds `PyParser::isFactorAhead()`. -/
def pyIsFactorAhead (st : PSt) : Bool :=
  match pyAhead st with
  | .PLUS | .MINUS | .TILDE => true
  | _ => pyIsAtomAhead st

/-- Embeds `PyParser::isExprAhead()`. -/
def pyIsExprAhead (st : PSt) : Bool :=
  pyIsFactorAhead st

/-- Embeds `PyParser::isNonLambdaTestAhead()`. -/
def pyIsNonLambdaTestAhead (st : PSt) : Bool :=
  match pyAhead st with
  | .NOT => true
  | _ => pyIsExprAhead st

/-- Embeds `PyParser::isTestAhead()`. -/
def pyIsTestAhead (st : PSt) : Bool :=
  match pyAhead st with
  | .LAMBDA => true
  | _ => pyIsNonLambdaTestAhead st

/-- Embeds `PyParser::isArgAhead()`. -/
def pyIsArgAhead (st : PSt) : Bool :=
  match pyAhead st with
  | .STAR | .STAR_STAR => true
  | _ => pyIsTestAhead st

/-- Embeds `PyParser::isSubscriptAhead()`. -/
def pyIsSubscriptAhead (st : PSt) : Bool :=
  match pyAhead st with
  | .DOT_DOT_DOT | .COLON => true
  | _ => pyIsTestAhead st

/-- Embeds `PyParser::isNameAhead()`. -/
def pyIsNameAhead (st : PSt) : Bool :=
  pyAhead st = .IDENTIFIER

/-- Embeds `PyParser::fetchPrecAhead()`: precedence level (`Zero`=0, `Or`=1,
`Xor`=2, `And`=3, `Shift`=4, `Term`=5, `Factor`=6) and the binary node for
the lookahead operator. -/
def pyFetchPrecAhead (st : PSt) : Nat × Option BinKind :=
  match pyAhead st with
  | .PIPE => (1, some .bitOr)
  | .CARET => (2, some .bitXor)
  | .AMPER => (3, some .bitAnd)
  | .LESS_LESS => (4, some .shift)
  | .GREATER_GREATER => (4, some .shift)
  | .PLUS => (5, some .add)
  | .MINUS => (5, some .sub)
  | .STAR => (6, some .mul)
  | .SLASH => (6, some .div)
  | .SLASH_SLASH => (6, some .div)
  | .PERCENT => (6, some .mod)
  | _ => (0, none)

/-- The twelve augmented-assign operators of `parseExprStmt`. -/
def pyIsAugAssign (tk : Tok) : Bool :=
  match tk with
  | .PLUS_EQUAL | .MINUS_EQUAL | .STAR_EQUAL | .SLASH_EQUAL | .PERCENT_EQUAL
  | .AMPER_EQUAL | .PIPE_EQUAL | .CARET_EQUAL | .LESS_LESS_EQUAL
  | .GREATER_GREATER_EQUAL | .STAR_STAR_EQUAL | .SLASH_SLASH_EQUAL => true
  | _ => false

/-- The target-conversion loop of `parseForStmt`: each expression whose kind
is `IdentExpr` contributes a `VarDecl` carrying its name; every other
expression is skipped (`continue`) with no other effect. -/
def pyForTargets : List Ast → List Ast
  | [] => []
  | e :: es =>
    match e with
    | .identExpr n => .varDecl n :: pyForTargets es
    | _ => pyForTargets es

/-- The base-conversion loop of `parseClassDef`: identifier expressions
become `BaseDecl`s, everything else is skipped. -/
def pyClassBases : List Ast → List Ast
  | [] => []
  | e :: es =>
    match e with
    | .identExpr n => .baseDecl n :: pyClassBases es
    | _ => pyClassBases es

/-- `listCompre->setExpr(e)` on a `ListCompreExprAst` node. -/
def lcSetExpr (e : Option Ast) : Ast → Ast
  | .listCompre _ gens => .listCompre e gens
  | a => a

/-- `listCompre->addGen(new Generator)` on a `ListCompreExprAst` node. -/
def lcAddGen : Ast → Ast
  | .listCompre e gens => .listCompre e (gens ++ [.generator [] none []])
  | a => a

/-- Mutation of `listCompre->gens()->back()`. -/
def lcMapLastGen (f : Ast → Ast) : Ast → Ast
  | .listCompre e gens =>
    match gens.getLast? with
    | none => .listCompre e gens
    | some g => .listCompre e (gens.dropLast ++ [f g])
  | a => a

/-- `gen->setPatterns(ps)`. -/
def genSetPatterns (ps : List Ast) : Ast → Ast
  | .generator _ r fs => .generator ps r fs
  | a => a

/-- `gen->setRange(r)`. -/
def genSetRange (r : Option Ast) : Ast → Ast
  | .generator ps _ fs => .generator ps r fs
  | a => a

/-- `gen->addFilter(f)`. -/
def genAddFilter (f : Option Ast) : Ast → Ast
  | .generator ps r fs => .generator ps r (pyAddToList fs f)
  | a => a

/-- The tail of `completeWrapped`: match the closing `)` (with `skipTo`
recovery) and wrap the expression. -/
def pyCloseWrapped (e : Option Ast) (st : PSt) : Option Ast × PSt :=
  let m := pyMatchTok .RPAREN st
  let st2 := if m.1 then m.2 else pySkipTo .RPAREN m.2
  (some (.wrapped e), st2)

mutual

/-- Embeds the statement-accumulation loop of `PyParser::parse`:
`while (ahead_ != TK_EOP) { if (maybeConsume(TK_NEWLINE)) continue;
addToList(stmts, parseStmt()); }`. -/
def pyParseTopLoop : Nat → PSt → List Ast → Option (List Ast × PSt)
  | 0, _, _ => none
  | fuel+1, st, stmts =>
    if pyAhead st = .EOP then pure (stmts, st)
    else if pyAhead st = .NEWLINE then pyParseTopLoop fuel (pyConsume st) stmts
    else do
      let (s, st) ← pyParseStmt fuel st
      pyParseTopLoop fuel st (pyAddToList stmts s)

/-- Embeds `PyParser::parseStmt` (dispatch on `ahead_`). -/
def pyParseStmt : Nat → PSt → Option (Option Ast × PSt)
  | 0, _ => none
  | fuel+1, st =>
    match pyAhead st with
    | .PRINT | .DELETE | .PASS | .IMPORT | .GLOBAL | .EXEC | .ASSERT
    | .BREAK | .CONTINUE | .RETURN | .THROW | .YIELD => pyParseSimpleStmt fuel st
    | .IF => pyParseIfStmt fuel st
    | .WHILE => pyParseWhileStmt fuel st
    | .FOR => pyParseForStmt fuel st
    | .TRY => pyParseTryStmt fuel st
    | .WITH => pyParseWithStmt fuel st
    | .FUNC => pyParseFuncDef fuel st
    | .CLASS => pyParseClassDef fuel st
    | .AT_SYMBOL => pyParseDecorated fuel st
    | _ => pyParseSimpleStmt fuel st

/-- Embeds `PyParser::parseSimpleStmt`. -/
def pyParseSimpleStmt : Nat → PSt → Option (Option Ast × PSt)
  | 0, _ => none
  | fuel+1, st => do
    let (stmt, st) ← pyParseSmallStmt fuel st
    let (nl, st) := pyMaybeConsume .NEWLINE st
    if nl then pure (stmt, st)
    else do
      let (blockStmts, st) ← pySimpleStmtLoop fuel st (pyAddToList [] stmt)
      let (m, st) := pyMatchTok .NEWLINE st
      let st := if m then st else pySkipTo .NEWLINE st
      pure (some (.blockStmt blockStmts), st)

/-- The `while (maybeConsume(TK_SEMICOLON))` loop of `parseSimpleStmt`. -/
def pySimpleStmtLoop : Nat → PSt → List Ast → Option (List Ast × PSt)
  | 0, _, _ => none
  | fuel+1, st, acc =>
    let (c, st) := pyMaybeConsume .SEMICOLON st
    if c then
      if pyAhead st = .NEWLINE ∨ pyAhead st = .EOP then pure (acc, st)
      else do
        let (s, st) ← pyParseSmallStmt fuel st
        pySimpleStmtLoop fuel st (pyAddToList acc s)
    else pure (acc, st)

/-- Embeds `PyParser::parseSmallStmt` (dispatch on `ahead_`). -/
def pyParseSmallStmt : Nat → PSt → Option (Option Ast × PSt)
  | 0, _ => none
  | fuel+1, st =>
    match pyAhead st with
    | .PRINT => pyParsePrintStmt fuel st
    | .DELETE => pyParseDelStmt fuel st
    | .PASS => pyParsePassStmt fuel st
    | .IMPORT | .FROM => pyParseImportStmt fuel st
    | .GLOBAL => pyParseGlobalStmt fuel st
    | .EXEC => pyParseExecStmt fuel st
    | .ASSERT => pyParseAssertStmt fuel st
    | .BREAK | .CONTINUE | .RETURN | .THROW | .YIELD => pyParseFlowStmt fuel st
    | _ => pyParseExprStmt fuel st

/-- Embeds `PyParser::parseExprStmt`: a leading `testlist`, then the
assignment loop. -/
def pyParseExprStmt : Nat → PSt → Option (Option Ast × PSt)
  | 0, _ => none
  | fuel+1, st => do
    let (exprs, st) ← pyParseTestList fuel st
    pyExprStmtLoop fuel st exprs

/-- The `while (true)` assignment loop of `parseExprStmt`: an augmented
operator or `=` builds an `Assign` whose left side is the list built so
far and whose right side is a yield expression or a `testlist`; the loop
continues only for a plain `=` followed by another `=`. -/
def pyExprStmtLoop : Nat → PSt → List Ast → Option (Option Ast × PSt)
  | 0, _, _ => none
  | fuel+1, st, exprs =>
    let aug := pyIsAugAssign (pyAhead st)
    if aug ∨ pyAhead st = .EQUAL then do
      let st := pyConsume st
      let (rhs, st) ←
        if pyAhead st = .YIELD then do
          let (y, st) ← pyParseYieldExpr fuel st
          pure (pyAddToList [] y, st)
        else pyParseTestList fuel st
      let assign : Ast := .assignExpr exprs rhs
      if aug ∨ pyAhead st ≠ .EQUAL then
        pure (some (.exprStmt [assign]), st)
      else
        pyExprStmtLoop fuel st [assign]
    else
      pure (some (.exprStmt exprs), st)

/-- Embeds `PyParser::parsePrintStmt`. -/
def pyParsePrintStmt : Nat → PSt → Option (Option Ast × PSt)
  | 0, _ => none
  | fuel+1, st => do
    let (_, st) := pyMatchTok .PRINT st
    let (redir, st) := pyMaybeConsume .GREATER_GREATER st
    if redir then do
      let (t, st) ← pyParseTest fuel st
      let es := pyAddToList [] t
      let (c, st) := pyMaybeConsume .COMMA st
      if c then pyPrintTail fuel st es true
      else pure (some (.exprStmt [.printExpr es]), st)
    else pyPrintTail fuel st [] false

/-- The trailing `test (',' test)* [',']` part of `parsePrintStmt`. -/
def pyPrintTail : Nat → PSt → List Ast → Bool → Option (Option Ast × PSt)
  | 0, _, _, _ => none
  | fuel+1, st, es, wantTest =>
    if wantTest ∨ pyIsTestAhead st then do
      let (t, st) ← pyParseTest fuel st
      let es := pyAddToList es t
      let (c, st) := pyMaybeConsume .COMMA st
      if c then
        if pyIsTestAhead st then do
          let (ts, st) ← pyParseTestList fuel st
          pure (some (.exprStmt [.printExpr (es ++ ts)]), st)
        else pure (some (.exprStmt [.printExpr es]), st)
      else pure (some (.exprStmt [.printExpr es]), st)
    else pure (some (.exprStmt [.printExpr es]), st)

/-- Embeds `PyParser::parseDelStmt`. -/
def pyParseDelStmt : Nat → PSt → Option (Option Ast × PSt)
  | 0, _ => none
  | fuel+1, st => do
    let (_, st) := pyMatchTok .DELETE st
    let (es, st) ← pyParseExprList fuel st
    pure (some (.exprStmt [.delExpr es]), st)

/-- Embeds `PyParser::parsePassStmt`. -/
def pyParsePassStmt : Nat → PSt → Option (Option Ast × PSt)
  | 0, _ => none
  | _fuel+1, st =>
    let (_, st) := pyMatchTok .PASS st
    pure (some .emptyStmt, st)

/-- Embeds `PyParser::parseFlowStmt` (dispatch). -/
def pyParseFlowStmt : Nat → PSt → Option (Option Ast × PSt)
  | 0, _ => none
  | fuel+1, st =>
    match pyAhead st with
    | .BREAK => pyParseBreakStmt fuel st
    | .CONTINUE => pyParseContinueStmt fuel st
    | .RETURN => pyParseReturnStmt fuel st
    | .THROW => pyParseRaiseStmt fuel st
    | .YIELD => pyParseYieldStmt fuel st
    | _ => pure (none, pyFailMatch true st)

/-- Embeds `PyParser::parseImportStmt` (both `import` and `from` shapes). -/
def pyParseImportStmt : Nat → PSt → Option (Option Ast × PSt)
  | 0, _ => none
  | fuel+1, st =>
    match pyAhead st with
    | .IMPORT => do
      let st := pyConsume st
      let (modules, st) ← pyImportModulesLoop fuel st []
      let st := if modules.isEmpty then pyFailMatch true st else st
      pure (some (.declStmt (some (.importClause modules))), st)
    | .FROM => do
      let st := pyConsume st
      let (wantName, st) ← pyFromDotsLoop fuel st true
      if wantName ∨ pyIsNameAhead st then do
        let (dn, st) ← pyParseDottedName fuel st
        let (_, st) := pyMatchTok .IMPORT st
        let (members, st) ← pyParseSubImports fuel true st
        pure (some (.declStmt (some (.importClause
          [.importModule (some (.identExpr dn)) none members]))), st)
      else do
        let (_, st) := pyMatchTok .IMPORT st
        let (modules, st) ← pyParseSubImports fuel false st
        pure (some (.declStmt (some (.importClause modules))), st)
    | _ => pure (none, pyFailMatch true st)

/-- The `dotted_as_name (',' dotted_as_name)*` loop of `parseImportStmt`. -/
def pyImportModulesLoop : Nat → PSt → List Ast → Option (List Ast × PSt)
  | 0, _, _ => none
  | fuel+1, st, acc => do
    let (dn, st) ← pyParseDottedName fuel st
    let (asSeen, st) := pyMaybeConsume .AS st
    let (localName, st) ←
      if asSeen then pyParseName fuel st
      else pure (none, st)
    let acc := acc ++ [Ast.importModule (some (.identExpr dn)) localName []]
    let (c, st) := pyMaybeConsume .COMMA st
    if c then pyImportModulesLoop fuel st acc else pure (acc, st)

/-- The `while (maybeConsume(TK_DOT) || maybeConsume(TK_DOT_DOT_DOT))`
relative-dots loop of the `from` shape; returns `wantName`. -/
def pyFromDotsLoop : Nat → PSt → Bool → Option (Bool × PSt)
  | 0, _, _ => none
  | fuel+1, st, wantName =>
    let (c, st2) := pyMaybeConsume2 .DOT .DOT_DOT_DOT st
    if c then pyFromDotsLoop fuel st2 false else pure (wantName, st2)

/-- Embeds `PyParser::parseSubImports(selective)`. -/
def pyParseSubImports : Nat → Bool → PSt → Option (List Ast × PSt)
  | 0, _, _ => none
  | fuel+1, selective, st =>
    match pyAhead st with
    | .STAR =>
      let st := pyConsume st
      if selective then
        pure ([Ast.importMember (some (.genName st.lastLoc)) none], st)
      else
        pure ([], pyFailMatch false st)
    | .LPAREN => do
      let st := pyConsume st
      let (decls, st) ←
        if selective then pySubImportMembersLoop fuel st []
        else pySubImportModulesLoop fuel st []
      let (m, st) := pyMatchTok .RPAREN st
      let st := if m then st else pySkipTo .RPAREN st
      let st := if decls.isEmpty then pyFailMatch true st else st
      pure (decls, st)
    | _ => do
      let (decls, st) ←
        if selective then pySubImportMembersLoop fuel st []
        else pySubImportModulesLoop fuel st []
      let st := if decls.isEmpty then pyFailMatch true st else st
      pure (decls, st)

/-- The selective `import_as_name (',' import_as_name)*` loop. -/
def pySubImportMembersLoop : Nat → PSt → List Ast → Option (List Ast × PSt)
  | 0, _, _ => none
  | fuel+1, st, acc => do
    let (n, st) ← pyParseName fuel st
    let (asSeen, st) := pyMaybeConsume .AS st
    let (nick, st) ←
      if asSeen then pyParseName fuel st
      else pure (none, st)
    let acc := acc ++ [Ast.importMember n nick]
    let (c, st) := pyMaybeConsume .COMMA st
    if c then pySubImportMembersLoop fuel st acc else pure (acc, st)

/-- The non-selective module loop of `parseSubImports`. -/
def pySubImportModulesLoop : Nat → PSt → List Ast → Option (List Ast × PSt)
  | 0, _, _ => none
  | fuel+1, st, acc => do
    let (n, st) ← pyParseName fuel st
    let (asSeen, st) := pyMaybeConsume .AS st
    let (localName, st) ←
      if asSeen then pyParseName fuel st
      else pure (none, st)
    let acc := acc ++ [Ast.importModule (some (.identExpr n)) localName []]
    let (c, st) := pyMaybeConsume .COMMA st
    if c then pySubImportModulesLoop fuel st acc else pure (acc, st)

/-- Embeds `PyParser::parseGlobalStmt`. -/
def pyParseGlobalStmt : Nat → PSt → Option (Option Ast × PSt)
  | 0, _ => none
  | fuel+1, st => do
    let (_, st) := pyMatchTok .GLOBAL st
    let (decls, st) ← pyGlobalLoop fuel st []
    let st := if decls.isEmpty then pyFailMatch true st else st
    pure (some (.declStmt (some (.varGroup decls))), st)

/-- The `NAME (',' NAME)*` loop of `parseGlobalStmt`. -/
def pyGlobalLoop : Nat → PSt → List Ast → Option (List Ast × PSt)
  | 0, _, _ => none
  | fuel+1, st, acc => do
    let (n, st) ← pyParseName fuel st
    let acc := acc ++ [Ast.varDecl n]
    let (c, st) := pyMaybeConsume .COMMA st
    if c then pyGlobalLoop fuel st acc else pure (acc, st)

/-- Embeds `PyParser::parseExecStmt` (the `in` operands are parsed and
dropped, as in the source's TODO). -/
def pyParseExecStmt : Nat → PSt → Option (Option Ast × PSt)
  | 0, _ => none
  | fuel+1, st => do
    let (_, st) := pyMatchTok .EXEC st
    let (e, st) ← pyParseExpr fuel st
    let (inSeen, st) := pyMaybeConsume .IN st
    let st ←
      if inSeen then do
        let (_, st) ← pyParseTest fuel st
        let (c, st) := pyMaybeConsume .COMMA st
        if c then do
          let (_, st) ← pyParseTest fuel st
          pure st
        else pure st
      else pure st
    pure (some (.evalStmt e), st)

/-- Embeds `PyParser::parseAssertStmt` (the message test is parsed and
dropped, as in the source's TODO). -/
def pyParseAssertStmt : Nat → PSt → Option (Option Ast × PSt)
  | 0, _ => none
  | fuel+1, st => do
    let (_, st) := pyMatchTok .ASSERT st
    let (e, st) ← pyParseTest fuel st
    let (c, st) := pyMaybeConsume .COMMA st
    let st ←
      if c then do
        let (_, st) ← pyParseTest fuel st
        pure st
      else pure st
    pure (some (.exprStmt [.assertExpr e]), st)

/-- Embeds `PyParser::parseIfStmt`. -/
def pyParseIfStmt : Nat → PSt → Option (Option Ast × PSt)
  | 0, _ => none
  | fuel+1, st =>
    let (_, st) := pyMatchTok .IF st
    pyParseIfElseIfStmt fuel st

/-- Embeds `PyParser::parseIfElseIfStmt` (`elif` as nested else-if). -/
def pyParseIfElseIfStmt : Nat → PSt → Option (Option Ast × PSt)
  | 0, _ => none
  | fuel+1, st => do
    let (c, st) ← pyParseTest fuel st
    let (_, st) := pyMatchTok .COLON st
    let (thn, st) ← pyParseSuite fuel st
    let (elif, st) := pyMaybeConsume .ELIF st
    if elif then do
      let (nt, st) ← pyParseIfElseIfStmt fuel st
      pure (some (.ifStmt c thn nt), st)
    else
      let (els, st) := pyMaybeConsume .ELSE st
      if els then do
        let (_, st) := pyMatchTok .COLON st
        let (nt, st) ← pyParseSuite fuel st
        pure (some (.ifStmt c thn nt), st)
      else pure (some (.ifStmt c thn none), st)

/-- Embeds `PyParser::parseWhileStmt` (the trailing `else` suite is parsed
and dropped: the AST has no slot, a documented design gap). -/
def pyParseWhileStmt : Nat → PSt → Option (Option Ast × PSt)
  | 0, _ => none
  | fuel+1, st => do
    let (_, st) := pyMatchTok .WHILE st
    let (c, st) ← pyParseTest fuel st
    let (_, st) := pyMatchTok .COLON st
    let (body, st) ← pyParseSuite fuel st
    let (els, st) := pyMaybeConsume .ELSE st
    let st ←
      if els then do
        let (_, st) := pyMatchTok .COLON st
        let (_, st) ← pyParseSuite fuel st
        pure st
      else pure st
    pure (some (.whileStmt c body), st)

/-- Embeds `PyParser::parseForStmt`: identifier targets become `VarDecl`s of
a `VarGroup` (`pyForTargets`); the iterable is the head of the `testlist`;
the trailing `else` suite is parsed and dropped. -/
def pyParseForStmt : Nat → PSt → Option (Option Ast × PSt)
  | 0, _ => none
  | fuel+1, st => do
    let (_, st) := pyMatchTok .FOR st
    let (exprs, st) ← pyParseExprList fuel st
    let group : Ast := .varGroup (pyForTargets exprs)
    let (_, st) := pyMatchTok .IN st
    let (test, st) ← pyParseTestList fuel st
    let (_, st) := pyMatchTok .COLON st
    let (body, st) ← pyParseSuite fuel st
    let (els, st) := pyMaybeConsume .ELSE st
    let st ←
      if els then do
        let (_, st) := pyMatchTok .COLON st
        let (_, st) ← pyParseSuite fuel st
        pure st
      else pure st
    pure (some (.foreachStmt (some group) test.head? body), st)

/-- Embeds `PyParser::parseTryStmt`: the `try : suite` header, then the
clause loop. -/
def pyParseTryStmt : Nat → PSt → Option (Option Ast × PSt)
  | 0, _ => none
  | fuel+1, st => do
    let (_, st) := pyMatchTok .TRY st
    let (_, st) := pyMatchTok .COLON st
    let (body, st) ← pyParseSuite fuel st
    pyTryClauseLoop fuel st body [] false

/-- The clause loop of `parseTryStmt`: `except` clauses accumulate;
`finally` attaches and returns immediately; `else` is accepted only after
at least one `except` and at most once, otherwise `failMatch(true)` reports
`UnexpectedToken`; any other token ends the loop (reporting if no `except`
was seen). -/
def pyTryClauseLoop : Nat → PSt → Option Ast → List Ast → Bool → Option (Option Ast × PSt)
  | 0, _, _, _, _ => none
  | fuel+1, st, body, catchs, seenElse =>
    match pyAhead st with
    | .CATCH => do
      let st := pyConsume st
      let (decl, st) ←
        if pyIsTestAhead st then do
          let (test, st) ← pyParseTest fuel st
          match test with
          | some t =>
            let spec : Option Ast :=
              match t with
              | .identExpr n => some (.namedSpec n)
              | _ => none
            let (cap, st) := pyMaybeConsume2 .AS .COMMA st
            if cap then do
              let (ident, st) ← pyParseTest fuel st
              match ident with
              | some i =>
                match i with
                | .identExpr n => pure (some (Ast.paramGroup spec [.param n none false]), st)
                | _ => pure (some (Ast.paramGroup spec []), pyTrackReport .NameRequired st)
              | none => pure (some (Ast.paramGroup spec []), st)
            else pure (some (Ast.paramGroup spec []), st)
          | none => pure (none, st)
        else pure (none, st)
      let (_, st) := pyMatchTok .COLON st
      let (suite, st) ← pyParseSuite fuel st
      pyTryClauseLoop fuel st body (catchs ++ [Ast.catchClause decl suite]) seenElse
    | .FINALLY => do
      let st := pyConsume st
      let (_, st) := pyMatchTok .COLON st
      let (suite, st) ← pyParseSuite fuel st
      pure (some (.tryStmt body catchs (some (.finallyClause suite))), st)
    | .ELSE =>
      if catchs.isEmpty ∨ seenElse then
        pyTryClauseLoop fuel (pyFailMatch true st) body catchs seenElse
      else do
        let st := pyConsume st
        let (_, st) := pyMatchTok .COLON st
        let (_, st) ← pyParseSuite fuel st
        pyTryClauseLoop fuel st body catchs true
    | _ =>
      let st := if catchs.isEmpty then pyFailMatch true st else st
      pure (some (.tryStmt body catchs none), st)

/-- Embeds `PyParser::parseWithStmt`. -/
def pyParseWithStmt : Nat → PSt → Option (Option Ast × PSt)
  | 0, _ => none
  | fuel+1, st => do
    let (_, st) := pyMatchTok .WITH st
    let (e, st) ← pyParseWithItem fuel st
    let (exprs, st) ← pyWithItemsLoop fuel st (pyAddToList [] e)
    let st := if exprs.isEmpty then pyFailMatch true st else st
    let (_, st) := pyMatchTok .COLON st
    let (body, st) ← pyParseSuite fuel st
    pure (some (.withStmt exprs body), st)

/-- The `(',' with_item)*` loop of `parseWithStmt` (no trailing comma). -/
def pyWithItemsLoop : Nat → PSt → List Ast → Option (List Ast × PSt)
  | 0, _, _ => none
  | fuel+1, st, acc =>
    let (c, st) := pyMaybeConsume .COMMA st
    if c then do
      let (e, st) ← pyParseWithItem fuel st
      pyWithItemsLoop fuel st (pyAddToList acc e)
    else pure (acc, st)

/-- Embeds `PyParser::parseWithItem`: `test ['as' expr]`, the `as` form
producing an `Assign`. -/
def pyParseWithItem : Nat → PSt → Option (Option Ast × PSt)
  | 0, _ => none
  | fuel+1, st => do
    let (test, st) ← pyParseTest fuel st
    let (asSeen, st) := pyMaybeConsume .AS st
    if asSeen then do
      let (e2, st) ← pyParseExpr fuel st
      pure (some (.assignExpr (pyAddToList [] test) (pyAddToList [] e2)), st)
    else pure (test, st)

/-- Embeds `PyParser::parseVarArgsList(wantParen)`. -/
def pyParseVarArgsList : Nat → Bool → PSt → Option (Option Ast × PSt)
  | 0, _, _ => none
  | fuel+1, wantParen, st => do
    let st := if wantParen then (pyMatchTok .LPAREN st).2 else st
    let (decls, st) ← pyVarArgsLoop fuel st [] false
    let st ←
      if wantParen then
        let (m, st) := pyMatchTok .RPAREN st
        pure (if m then st else pySkipTo .RPAREN st)
      else pure st
    pure (some (.paramClause decls), st)

/-- The parameter do-while loop of `parseVarArgsList`: after a `*`
parameter, plain names add nothing; `**` ends the loop. -/
def pyVarArgsLoop : Nat → PSt → List Ast → Bool → Option (List Ast × PSt)
  | 0, _, _, _ => none
  | fuel+1, st, decls, seenStar =>
    match pyAhead st with
    | .IDENTIFIER =>
      if seenStar then pyVarArgsCont fuel st decls seenStar
      else do
        let (name, st) ← pyParseName fuel st
        let (eq, st) := pyMaybeConsume .EQUAL st
        let (prm, st) ←
          if eq then do
            let (d, st) ← pyParseTest fuel st
            pure (Ast.param name d false, st)
          else pure (Ast.param name none false, st)
        pyVarArgsCont fuel st (decls ++ [Ast.paramGroup (some .inferredSpec) [prm]]) seenStar
    | .STAR =>
      if seenStar then pyVarArgsCont fuel st decls seenStar
      else do
        let st := pyConsume st
        let (g, st) ← pyCompleteParam fuel st
        pyVarArgsCont fuel st (decls ++ [g]) true
    | .STAR_STAR => do
      let st := pyConsume st
      let (g, st) ← pyCompleteParam fuel st
      pure (decls ++ [g], st)
    | _ => pure (decls, st)

/-- The `while (takeComma && maybeConsume(TK_COMMA))` condition of
`parseVarArgsList`. -/
def pyVarArgsCont : Nat → PSt → List Ast → Bool → Option (List Ast × PSt)
  | 0, _, _, _ => none
  | fuel+1, st, decls, seenStar =>
    let (c, st) := pyMaybeConsume .COMMA st
    if c then pyVarArgsLoop fuel st decls seenStar else pure (decls, st)

/-- Embeds `PyParser::completeParam(group)`: a variadic parameter named by
`parseName`, appended to the (inferred-spec) group. -/
def pyCompleteParam : Nat → PSt → Option (Ast × PSt)
  | 0, _ => none
  | fuel+1, st => do
    let (n, st) ← pyParseName fuel st
    pure (Ast.paramGroup (some .inferredSpec) [.param n none true], st)

/-- Embeds `PyParser::parseFuncDef` (the `FuncSpec` holding the parameter
clause is flattened into the decl). -/
def pyParseFuncDef : Nat → PSt → Option (Option Ast × PSt)
  | 0, _ => none
  | fuel+1, st => do
    let (_, st) := pyMatchTok .FUNC st
    let (name, st) ← pyParseName fuel st
    let (prm, st) ← pyParseVarArgsList fuel true st
    let (_, st) := pyMatchTok .COLON st
    let (body, st) ← pyParseSuite fuel st
    pure (some (.declStmt (some (.funcDecl name prm body))), st)

/-- Embeds `PyParser::parseClassDef`: identifier bases become `BaseDecl`s
(`pyClassBases`), others are silently dropped. -/
def pyParseClassDef : Nat → PSt → Option (Option Ast × PSt)
  | 0, _ => none
  | fuel+1, st => do
    let (_, st) := pyMatchTok .CLASS st
    let (name, st) ← pyParseName fuel st
    let (lp, st) := pyMaybeConsume .LPAREN st
    let (bases, st) ←
      if lp then do
        let (tests, st) ← pyParseTestList fuel st
        let (m, st) := pyMatchTok .RPAREN st
        let st := if m then st else pySkipTo .RPAREN st
        pure (pyClassBases tests, st)
      else pure ([], st)
    let (_, st) := pyMatchTok .COLON st
    let (proto, st) ← pyParseSuite fuel st
    pure (some (.declStmt (some (.recordDecl name bases proto))), st)

/-- Embeds `PyParser::parseDecorated`: decorators are parsed and dropped
(the source's TODO), then a class or function definition must follow. -/
def pyParseDecorated : Nat → PSt → Option (Option Ast × PSt)
  | 0, _ => none
  | fuel+1, st => do
    let (_, st) := pyMatchTok .AT_SYMBOL st
    let st ← pyDecoratorsLoop fuel st
    match pyAhead st with
    | .CLASS => pyParseClassDef fuel st
    | .FUNC => pyParseFuncDef fuel st
    | _ => pure (none, pyFailMatch true st)

/-- The decorator do-while loop of `parseDecorated`. -/
def pyDecoratorsLoop : Nat → PSt → Option PSt
  | 0, _ => none
  | fuel+1, st => do
    let (_, st) ← pyParseDottedName fuel st
    let (lp, st) := pyMaybeConsume .LPAREN st
    let st ←
      if lp then do
        let (_, st) ← pyParseArgList fuel st
        let (m, st) := pyMatchTok .RPAREN st
        pure (if m then st else pySkipTo .RPAREN st)
      else pure st
    let (m2, st) := pyMatchTok .NEWLINE st
    let st := if m2 then st else pySkipTo .NEWLINE st
    let (at2, st) := pyMaybeConsume .AT_SYMBOL st
    if at2 then pyDecoratorsLoop fuel st else pure st

/-- Embeds `PyParser::parseContinueStmt`. -/
def pyParseContinueStmt : Nat → PSt → Option (Option Ast × PSt)
  | 0, _ => none
  | _fuel+1, st =>
    let (_, st) := pyMatchTok .CONTINUE st
    pure (some .continueStmt, st)

/-- Embeds `PyParser::parseBreakStmt`. -/
def pyParseBreakStmt : Nat → PSt → Option (Option Ast × PSt)
  | 0, _ => none
  | _fuel+1, st =>
    let (_, st) := pyMatchTok .BREAK st
    pure (some .breakStmt, st)

/-- Embeds `PyParser::parseYieldStmt`. -/
def pyParseYieldStmt : Nat → PSt → Option (Option Ast × PSt)
  | 0, _ => none
  | fuel+1, st => do
    let (y, st) ← pyParseYieldExpr fuel st
    pure (some (.yieldStmt y), st)

/-- Embeds `PyParser::parseRaiseStmt` (second and third operands parsed and
dropped, as in the source's TODO). -/
def pyParseRaiseStmt : Nat → PSt → Option (Option Ast × PSt)
  | 0, _ => none
  | fuel+1, st => do
    let (_, st) := pyMatchTok .THROW st
    if pyIsTestAhead st then do
      let (e, st) ← pyParseTest fuel st
      let (c, st) := pyMaybeConsume .COMMA st
      let st ←
        if c then do
          let (_, st) ← pyParseTest fuel st
          let (c2, st) := pyMaybeConsume .COMMA st
          if c2 then do
            let (_, st) ← pyParseTest fuel st
            pure st
          else pure st
        else pure st
      pure (some (.throwStmt e), st)
    else pure (some (.throwStmt none), st)

/-- Embeds `PyParser::parseReturnStmt`. -/
def pyParseReturnStmt : Nat → PSt → Option (Option Ast × PSt)
  | 0, _ => none
  | fuel+1, st => do
    let (_, st) := pyMatchTok .RETURN st
    if pyIsTestAhead st then do
      let (es, st) ← pyParseTestList fuel st
      pure (some (.returnStmt es), st)
    else pure (some (.returnStmt []), st)

/-- Embeds `PyParser::parseSuite`. -/
def pyParseSuite : Nat → PSt → Option (Option Ast × PSt)
  | 0, _ => none
  | fuel+1, st =>
    let (nl, st) := pyMaybeConsume .NEWLINE st
    if nl then do
      let (_, st) := pyMatchTok .INDENT st
      let (s, st) ← pyParseStmt fuel st
      pySuiteLoop fuel st (pyAddToList [] s)
    else pyParseSimpleStmt fuel st

/-- The `while (!maybeConsume(TK_DEDENT) && ahead_ != TK_EOP)` loop of
`parseSuite`. -/
def pySuiteLoop : Nat → PSt → List Ast → Option (Option Ast × PSt)
  | 0, _, _ => none
  | fuel+1, st, acc =>
    let (d, st) := pyMaybeConsume .DEDENT st
    if d then pure (some (.blockStmt acc), st)
    else if pyAhead st = .EOP then pure (some (.blockStmt acc), st)
    else do
      let (s, st) ← pyParseStmt fuel st
      pySuiteLoop fuel st (pyAddToList acc s)

/-- Embeds `PyParser::parseExprList`. -/
def pyParseExprList : Nat → PSt → Option (List Ast × PSt)
  | 0, _ => none
  | fuel+1, st => do
    let (e, st) ← pyParseExpr fuel st
    let (l, _, st) ← pyExprListLoop fuel st (pyAddToList [] e)
    pure (l, st)

/-- The `parseList(TK_COMMA, isExprAhead, parseExpr)` loop (trailing comma
accepted). -/
def pyExprListLoop : Nat → PSt → List Ast → Option (List Ast × Bool × PSt)
  | 0, _, _ => none
  | fuel+1, st, acc =>
    let (c, st) := pyMaybeConsume .COMMA st
    if c then
      if pyIsExprAhead st then do
        let (e, st) ← pyParseExpr fuel st
        pyExprListLoop fuel st (pyAddToList acc e)
      else pure (acc, true, st)
    else pure (acc, false, st)

/-- Embeds `PyParser::parseTest`: lambda, or `or_test` with an optional
right-recursive conditional. -/
def pyParseTest : Nat → PSt → Option (Option Ast × PSt)
  | 0, _ => none
  | fuel+1, st =>
    if pyAhead st = .LAMBDA then pyParseLambdaDef fuel st
    else do
      let (orTest, st) ← pyParseOrTest fuel st
      let (ifSeen, st) := pyMaybeConsume .IF st
      if ifSeen then do
        let (c, st) ← pyParseOrTest fuel st
        let (_, st) := pyMatchTok .ELSE st
        let (no, st) ← pyParseTest fuel st
        pure (some (.condExpr orTest c no), st)
      else pure (orTest, st)

/-- Embeds `PyParser::parseOldTest`. -/
def pyParseOldTest : Nat → PSt → Option (Option Ast × PSt)
  | 0, _ => none
  | fuel+1, st =>
    if pyAhead st = .LAMBDA then pyParseOldLambdaDef fuel st
    else pyParseOrTest fuel st

/-- Embeds `PyParser::parseTestList`. -/
def pyParseTestList : Nat → PSt → Option (List Ast × PSt)
  | 0, _ => none
  | fuel+1, st => do
    let (t, st) ← pyParseTest fuel st
    let (l, _, st) ← pyTestListLoop fuel st (pyAddToList [] t)
    pure (l, st)

/-- The `parseList(TK_COMMA, isTestAhead, parseTest)` loop (trailing comma
accepted). -/
def pyTestListLoop : Nat → PSt → List Ast → Option (List Ast × Bool × PSt)
  | 0, _, _ => none
  | fuel+1, st, acc =>
    let (c, st) := pyMaybeConsume .COMMA st
    if c then
      if pyIsTestAhead st then do
        let (t, st) ← pyParseTest fuel st
        pyTestListLoop fuel st (pyAddToList acc t)
      else pure (acc, true, st)
    else pure (acc, false, st)

/-- Embeds `PyParser::parseTestList1` (no trailing comma). -/
def pyParseTestList1 : Nat → PSt → Option (List Ast × PSt)
  | 0, _ => none
  | fuel+1, st => do
    let (t, st) ← pyParseTest fuel st
    pyTestList1Loop fuel st (pyAddToList [] t)

/-- The no-trailing-comma loop of `parseTestList1`. -/
def pyTestList1Loop : Nat → PSt → List Ast → Option (List Ast × PSt)
  | 0, _, _ => none
  | fuel+1, st, acc =>
    let (c, st) := pyMaybeConsume .COMMA st
    if c then do
      let (t, st) ← pyParseTest fuel st
      pyTestList1Loop fuel st (pyAddToList acc t)
    else pure (acc, st)

/-- Embeds `PyParser::parseTestListSafe`. -/
def pyParseTestListSafe : Nat → PSt → Option (List Ast × PSt)
  | 0, _ => none
  | fuel+1, st => do
    let (t, st) ← pyParseOldTest fuel st
    let (l, _, st) ← pyTestListSafeLoop fuel st (pyAddToList [] t)
    pure (l, st)

/-- The `parseList(TK_COMMA, isTestAhead, parseOldTest)` loop. -/
def pyTestListSafeLoop : Nat → PSt → List Ast → Option (List Ast × Bool × PSt)
  | 0, _, _ => none
  | fuel+1, st, acc =>
    let (c, st) := pyMaybeConsume .COMMA st
    if c then
      if pyIsTestAhead st then do
        let (t, st) ← pyParseOldTest fuel st
        pyTestListSafeLoop fuel st (pyAddToList acc t)
      else pure (acc, true, st)
    else pure (acc, false, st)

/-- Embeds `PyParser::parseArg`: `test [comp_for] | test '=' test` (the
keyword-argument form inlines `completeAssignExpr`). -/
def pyParseArg : Nat → PSt → Option (Option Ast × PSt)
  | 0, _ => none
  | fuel+1, st => do
    let (test, st) ← pyParseTest fuel st
    match pyAhead st with
    | .FOR => do
      let (lc, st) ← pyParseCompFor fuel (Ast.listCompre none []) st
      pure (some (lcSetExpr test lc), st)
    | .EQUAL => do
      let st := pyConsume st
      let (rhs, st) ← pyParseTest fuel st
      pure (some (.assignExpr (pyAddToList [] test) (pyAddToList [] rhs)), st)
    | _ => pure (test, st)

/-- Embeds `PyParser::parseArgList`: leading arguments, then the `*` / `**`
splat section. -/
def pyParseArgList : Nat → PSt → Option (List Ast × PSt)
  | 0, _ => none
  | fuel+1, st =>
    if pyIsTestAhead st then do
      let (a, st) ← pyParseArg fuel st
      let (args, trailing, st) ← pyArgItemsLoop fuel st (pyAddToList [] a)
      if trailing then pyArgListStars fuel st args
      else pure (args, st)
    else pyArgListStars fuel st []

/-- The `parseList(TK_COMMA, isTestAhead, parseArg)` loop. -/
def pyArgItemsLoop : Nat → PSt → List Ast → Option (List Ast × Bool × PSt)
  | 0, _, _ => none
  | fuel+1, st, acc =>
    let (c, st) := pyMaybeConsume .COMMA st
    if c then
      if pyIsTestAhead st then do
        let (a, st) ← pyParseArg fuel st
        pyArgItemsLoop fuel st (pyAddToList acc a)
      else pure (acc, true, st)
    else pure (acc, false, st)

/-- The `*` / `**` splat tail of `parseArgList`: a missing required `**` arg
after a trailing comma is `failMatch(true)`. -/
def pyArgListStars : Nat → PSt → List Ast → Option (List Ast × PSt)
  | 0, _, _ => none
  | fuel+1, st, args => do
    let (starSeen, st) := pyMaybeConsume .STAR st
    let (args, wantStarStar, st) ←
      if starSeen then do
        let (t, st) ← pyParseTest fuel st
        let args := args ++ [Ast.unpackExpr t]
        let (c, st) := pyMaybeConsume .COMMA st
        if c then
          if pyIsTestAhead st then do
            let (a, st) ← pyParseArg fuel st
            let (more, trailing, st) ← pyArgItemsLoop fuel st (pyAddToList [] a)
            pure (args ++ more, trailing, st)
          else pure (args, true, st)
        else pure (args, false, st)
      else pure (args, false, st)
    let (ss, st) := pyMaybeConsume .STAR_STAR st
    if ss then do
      let (t, st) ← pyParseTest fuel st
      pure (args ++ [Ast.unpackExpr t], st)
    else
      if wantStarStar then pure (args, pyFailMatch true st)
      else pure (args, st)

/-- Embeds `PyParser::parseCompFor` (new-style comprehension generator). -/
def pyParseCompFor : Nat → Ast → PSt → Option (Ast × PSt)
  | 0, _, _ => none
  | fuel+1, lc, st =>
    if pyAhead st ≠ .FOR then pure (lc, st)
    else do
      let (_, st) := pyMatchTok .FOR st
      let lc := lcAddGen lc
      let (ps, st) ← pyParseExprList fuel st
      let lc := lcMapLastGen (genSetPatterns ps) lc
      let (_, st) := pyMatchTok .IN st
      let (r, st) ← pyParseOrTest fuel st
      let lc := lcMapLastGen (genSetRange r) lc
      pyCompleteListCompre fuel false lc st

/-- Embeds `PyParser::parseListFor` (old-style list-comprehension
generator; the range is the head of a `testlist_safe`). -/
def pyParseListFor : Nat → Ast → PSt → Option (Ast × PSt)
  | 0, _, _ => none
  | fuel+1, lc, st =>
    if pyAhead st ≠ .FOR then pure (lc, st)
    else do
      let (_, st) := pyMatchTok .FOR st
      let lc := lcAddGen lc
      let (ps, st) ← pyParseExprList fuel st
      let lc := lcMapLastGen (genSetPatterns ps) lc
      let (_, st) := pyMatchTok .IN st
      let (tests, st) ← pyParseTestListSafe fuel st
      let lc := if tests.isEmpty then lc else lcMapLastGen (genSetRange tests.head?) lc
      pyCompleteListCompre fuel true lc st

/-- Embeds `PyParser::parseListOrCompIf` (`old` selects the old-style pair
of continuation parsers, replacing the member-pointer dispatch). -/
def pyParseListOrCompIf : Nat → Bool → Ast → PSt → Option (Ast × PSt)
  | 0, _, _, _ => none
  | fuel+1, old, lc, st =>
    if pyAhead st ≠ .IF then pure (lc, st)
    else
      match lc with
      | .listCompre _ [] => pure (lc, st)
      | _ => do
        let (_, st) := pyMatchTok .IF st
        let (f, st) ← pyParseOldTest fuel st
        let lc := lcMapLastGen (genAddFilter f) lc
        pyCompleteListCompre fuel old lc st

/-- Embeds `PyParser::completeListCompre`. -/
def pyCompleteListCompre : Nat → Bool → Ast → PSt → Option (Ast × PSt)
  | 0, _, _, _ => none
  | fuel+1, old, lc, st =>
    if pyAhead st = .FOR then
      if old then pyParseListFor fuel lc st else pyParseCompFor fuel lc st
    else if pyAhead st = .IF then pyParseListOrCompIf fuel old lc st
    else pure (lc, st)

/-- Embeds `PyParser::parseOrTest`. -/
def pyParseOrTest : Nat → PSt → Option (Option Ast × PSt)
  | 0, _ => none
  | fuel+1, st => do
    let (e, st) ← pyParseAndTest fuel st
    pyOrTestLoop fuel e st

/-- The `('or' and_test)*` chain. -/
def pyOrTestLoop : Nat → Option Ast → PSt → Option (Option Ast × PSt)
  | 0, _, _ => none
  | fuel+1, e, st =>
    let (c, st) := pyMaybeConsume .OR st
    if c then do
      let (r, st) ← pyParseAndTest fuel st
      pyOrTestLoop fuel (some (.bin .logicOr e r)) st
    else pure (e, st)

/-- Embeds `PyParser::parseAndTest`. -/
def pyParseAndTest : Nat → PSt → Option (Option Ast × PSt)
  | 0, _ => none
  | fuel+1, st => do
    let (e, st) ← pyParseNotTest fuel st
    pyAndTestLoop fuel e st

/-- The `('and' not_test)*` chain. -/
def pyAndTestLoop : Nat → Option Ast → PSt → Option (Option Ast × PSt)
  | 0, _, _ => none
  | fuel+1, e, st =>
    let (c, st) := pyMaybeConsume .AND st
    if c then do
      let (r, st) ← pyParseNotTest fuel st
      pyAndTestLoop fuel (some (.bin .logicAnd e r)) st
    else pure (e, st)

/-- Embeds `PyParser::parseNotTest` (right-recursive `not`). -/
def pyParseNotTest : Nat → PSt → Option (Option Ast × PSt)
  | 0, _ => none
  | fuel+1, st =>
    let (c, st) := pyMaybeConsume .NOT st
    if c then do
      let (e, st) ← pyParseNotTest fuel st
      pure (some (.una .logicNot e), st)
    else pyParseComparison fuel st

/-- Embeds `PyParser::parseComparison`. -/
def pyParseComparison : Nat → PSt → Option (Option Ast × PSt)
  | 0, _ => none
  | fuel+1, st => do
    let (e, st) ← pyParseExpr fuel st
    pyComparisonLoop fuel e st

/-- The comparison chain: relational tokens, `in`, `is [not]`, `not in`. -/
def pyComparisonLoop : Nat → Option Ast → PSt → Option (Option Ast × PSt)
  | 0, _, _ => none
  | fuel+1, e, st =>
    match pyAhead st with
    | .LESS | .GREATER | .EQUAL_EQUAL | .GREATER_EQUAL | .LESS_EQUAL
    | .LESS_GREATER | .EXCLAM_EQUAL => do
      let st := pyConsume st
      let (r, st) ← pyParseExpr fuel st
      pyComparisonLoop fuel (some (.bin .rel e r)) st
    | .IN => do
      let st := pyConsume st
      let (r, st) ← pyParseExpr fuel st
      pyComparisonLoop fuel (some (.bin .inRel e r)) st
    | .IS => do
      let st := pyConsume st
      let (_, st) := pyMaybeConsume .NOT st
      let (r, st) ← pyParseExpr fuel st
      pyComparisonLoop fuel (some (.bin .isRel e r)) st
    | .NOT => do
      let st := pyConsume st
      let (_, st) := pyMatchTok .IN st
      let (r, st) ← pyParseExpr fuel st
      pyComparisonLoop fuel (some (.bin .inRel e r)) st
    | _ => pure (e, st)

/-- Embeds `PyParser::parseExpr`: `parseBinaryExpr(Precedence::Or)`. -/
def pyParseExpr : Nat → PSt → Option (Option Ast × PSt)
  | 0, _ => none
  | fuel+1, st => pyParseBinaryExpr fuel 1 st

/-- Embeds `PyParser::parseBinaryExpr(curPrec)`: a factor, then the
operator loop. -/
def pyParseBinaryExpr : Nat → Nat → PSt → Option (Option Ast × PSt)
  | 0, _, _ => none
  | fuel+1, curPrec, st => do
    let (f, st) ← pyParseFactor fuel st
    pyBinaryLoop fuel curPrec f st

/-- The operator loop of `parseBinaryExpr`: while the lookahead operator's
precedence is at least `curPrec`, consume it and recurse at `curPrec + 1`
for the right operand. -/
def pyBinaryLoop : Nat → Nat → Option Ast → PSt → Option (Option Ast × PSt)
  | 0, _, _, _ => none
  | fuel+1, curPrec, f, st =>
    let pk := pyFetchPrecAhead st
    if pk.1 < curPrec then pure (f, st)
    else
      match pk.2 with
      | none => pure (f, st)
      | some k => do
        let st := pyConsume st
        let (rhs, st) ← pyParseBinaryExpr fuel (curPrec + 1) st
        pyBinaryLoop fuel curPrec (some (.bin k f rhs)) st

/-- Embeds `PyParser::parseFactor`. -/
def pyParseFactor : Nat → PSt → Option (Option Ast × PSt)
  | 0, _ => none
  | fuel+1, st =>
    match pyAhead st with
    | .PLUS => do
      let st := pyConsume st
      let (e, st) ← pyParseFactor fuel st
      pure (some (.una .plus e), st)
    | .MINUS => do
      let st := pyConsume st
      let (e, st) ← pyParseFactor fuel st
      pure (some (.una .minus e), st)
    | .TILDE => do
      let st := pyConsume st
      let (e, st) ← pyParseFactor fuel st
      pure (some (.una .bitCompl e), st)
    | _ => pyParsePower fuel st

/-- Embeds `PyParser::parsePower`: atom, trailers, optional `**` with a
right-recursive factor. -/
def pyParsePower : Nat → PSt → Option (Option Ast × PSt)
  | 0, _ => none
  | fuel+1, st => do
    let (atom, st) ← pyParseAtom fuel st
    let (atom, st) ← pyPowerTrailers fuel atom st
    let (ss, st) := pyMaybeConsume .STAR_STAR st
    if ss then do
      let (r, st) ← pyParseFactor fuel st
      pure (some (.bin .power atom r), st)
    else pure (atom, st)

/-- The trailer loop of `parsePower`: calls, subscripts, member accesses. -/
def pyPowerTrailers : Nat → Option Ast → PSt → Option (Option Ast × PSt)
  | 0, _, _ => none
  | fuel+1, atom, st =>
    match pyAhead st with
    | .LPAREN => do
      let st := pyConsume st
      let (args, st) ←
        if pyIsArgAhead st then pyParseArgList fuel st
        else pure ([], st)
      let (m, st) := pyMatchTok .RPAREN st
      let st := if m then st else pySkipTo .RPAREN st
      pyPowerTrailers fuel (some (.callExpr atom args)) st
    | .LBRACKET => do
      let st := pyConsume st
      let (r, st) ← pyParseSubscript fuel st
      let (m, st) := pyMatchTok .RBRACKET st
      let st := if m then st else pySkipTo .RBRACKET st
      pyPowerTrailers fuel (some (.arraySlice atom r)) st
    | .DOT => do
      let st := pyConsume st
      let (n, st) ← pyParseName fuel st
      pyPowerTrailers fuel (some (.memberAccess atom n)) st
    | _ => pure (atom, st)

/-- Embeds `PyParser::parseAtom`. -/
def pyParseAtom : Nat → PSt → Option (Option Ast × PSt)
  | 0, _ => none
  | fuel+1, st =>
    match pyAhead st with
    | .LPAREN => pyParseWrappedOrTuple fuel st
    | .LBRACE => pyParseDictOrSetMaker fuel st
    | .LBRACKET => pyParseListMaker fuel st
    | .BACKTICK => do
      let st := pyConsume st
      let loc := st.lastLoc
      let (_, st) ← pyParseTestList1 fuel st
      let (m, st) := pyMatchTok .BACKTICK st
      let st := if m then st else pySkipTo .BACKTICK st
      pure (some (.strLit loc), st)
    | .IDENTIFIER => do
      let (n, st) ← pyParseName fuel st
      pure (some (.identExpr n), st)
    | .INTEGER_LITERAL =>
      let st := pyConsume st
      pure (some (.numLit st.lastLoc), st)
    | .FLOAT_LITERAL =>
      let st := pyConsume st
      pure (some (.numLit st.lastLoc), st)
    | .NULL_LITERAL =>
      let st := pyConsume st
      pure (some (.nullLit st.lastLoc), st)
    | .TRUE_LITERAL =>
      let st := pyConsume st
      pure (some (.boolLit st.lastLoc), st)
    | .FALSE_LITERAL =>
      let st := pyConsume st
      pure (some (.boolLit st.lastLoc), st)
    | .STRING_LITERAL => pyParseStrLit fuel st
    | _ => pure (none, pyFailMatch true st)

/-- Embeds `PyParser::parseSubscript`. -/
def pyParseSubscript : Nat → PSt → Option (Option Ast × PSt)
  | 0, _ => none
  | fuel+1, st =>
    match pyAhead st with
    | .DOT_DOT_DOT =>
      let st := pyConsume st
      pure (some (.subrange none none none), st)
    | .COLON =>
      let st := pyConsume st
      pyCompleteSubrangeExpr fuel none st
    | _ => do
      let (test, st) ← pyParseTest fuel st
      let (c, st) := pyMaybeConsume .COLON st
      if c then pyCompleteSubrangeExpr fuel test st
      else pure (test, st)

/-- Embeds `PyParser::parseSubscriptList`. -/
def pyParseSubscriptList : Nat → PSt → Option (List Ast × PSt)
  | 0, _ => none
  | fuel+1, st => do
    let (s, st) ← pyParseSubscript fuel st
    let (l, _, st) ← pySubscriptListLoop fuel st (pyAddToList [] s)
    pure (l, st)

/-- The `parseList(TK_COMMA, isSubscriptAhead, parseSubscript)` loop. -/
def pySubscriptListLoop : Nat → PSt → List Ast → Option (List Ast × Bool × PSt)
  | 0, _, _ => none
  | fuel+1, st, acc =>
    let (c, st) := pyMaybeConsume .COMMA st
    if c then
      if pyIsSubscriptAhead st then do
        let (s, st) ← pyParseSubscript fuel st
        pySubscriptListLoop fuel st (pyAddToList acc s)
      else pure (acc, true, st)
    else pure (acc, false, st)

/-- Embeds `PyParser::completeSubrangeExpr(low)`. -/
def pyCompleteSubrangeExpr : Nat → Option Ast → PSt → Option (Option Ast × PSt)
  | 0, _, _ => none
  | fuel+1, low, st => do
    let (hi, st) ←
      if pyIsTestAhead st then pyParseTest fuel st
      else pure (none, st)
    let (_, st) := pyMaybeConsume .COLON st
    let (mx, st) ←
      if pyIsTestAhead st then pyParseTest fuel st
      else pure (none, st)
    pure (some (.subrange low hi mx), st)

/-- Embeds `PyParser::parseDictOrSetMaker` (parses the whole
`'{' [dictorsetmaker] '}'`). -/
def pyParseDictOrSetMaker : Nat → PSt → Option (Option Ast × PSt)
  | 0, _ => none
  | fuel+1, st => do
    let (_, st) := pyMatchTok .LBRACE st
    let (rb, st) := pyMaybeConsume .RBRACE st
    if rb then pure (some (.arrayInit []), st)
    else do
      let (test, st) ← pyParseTest fuel st
      match pyAhead st with
      | .COLON => do
        let st := pyConsume st
        let (v, st) ← pyParseTest fuel st
        let desig : Ast := .designate test v
        if pyAhead st = .FOR then do
          let (lc, st) ← pyParseListFor fuel (Ast.listCompre none []) st
          let lc := lcSetExpr (some desig) lc
          let (m, st) := pyMatchTok .RBRACE st
          let st := if m then st else pySkipTo .RBRACE st
          pure (some lc, st)
        else do
          let (inits, st) ← pyDictDesigLoop fuel st [desig]
          let (m, st) := pyMatchTok .RBRACE st
          let st := if m then st else pySkipTo .RBRACE st
          pure (some (.arrayInit inits), st)
      | .FOR => do
        let (lc, st) ← pyParseListFor fuel (Ast.listCompre none []) st
        let lc := lcSetExpr test lc
        let (m, st) := pyMatchTok .RBRACE st
        let st := if m then st else pySkipTo .RBRACE st
        pure (some lc, st)
      | .COMMA => do
        let st := pyConsume st
        let inits := pyAddToList [] test
        let (more, st) ← pyParseTestList fuel st
        let (m, st) := pyMatchTok .RBRACE st
        let st := if m then st else pySkipTo .RBRACE st
        pure (some (.arrayInit (inits ++ more)), st)
      | _ => do
        let inits := pyAddToList [] test
        let (m, st) := pyMatchTok .RBRACE st
        let st := if m then st else pySkipTo .RBRACE st
        pure (some (.arrayInit inits), st)

/-- The `(',' test ':' test)*` designator loop of `parseDictOrSetMaker`. -/
def pyDictDesigLoop : Nat → PSt → List Ast → Option (List Ast × PSt)
  | 0, _, _ => none
  | fuel+1, st, acc =>
    let (c, st) := pyMaybeConsume .COMMA st
    if c then
      if pyIsTestAhead st then do
        let (i, st) ← pyParseTest fuel st
        let (_, st) := pyMatchTok .COLON st
        let (v, st) ← pyParseTest fuel st
        pyDictDesigLoop fuel st (acc ++ [Ast.designate i v])
      else pure (acc, st)
    else pure (acc, st)

/-- Embeds `PyParser::parseListMaker` (parses the whole
`'[' [listmaker] ']'`). -/
def pyParseListMaker : Nat → PSt → Option (Option Ast × PSt)
  | 0, _ => none
  | fuel+1, st => do
    let (_, st) := pyMatchTok .LBRACKET st
    let (rb, st) := pyMaybeConsume .RBRACKET st
    if rb then pure (some (.arrayInit []), st)
    else do
      let (test, st) ← pyParseTest fuel st
      match pyAhead st with
      | .FOR => do
        let (lc, st) ← pyParseListFor fuel (Ast.listCompre none []) st
        let lc := lcSetExpr test lc
        let (m, st) := pyMatchTok .RBRACKET st
        let st := if m then st else pySkipTo .RBRACKET st
        pure (some lc, st)
      | .COMMA => do
        let st := pyConsume st
        let inits := pyAddToList [] test
        let (inits, st) ←
          if pyIsTestAhead st then do
            let (more, st) ← pyParseTestList fuel st
            pure (inits ++ more, st)
          else pure (inits, st)
        let (m, st) := pyMatchTok .RBRACKET st
        let st := if m then st else pySkipTo .RBRACKET st
        pure (some (.arrayInit inits), st)
      | _ => do
        let inits := pyAddToList [] test
        let (m, st) := pyMatchTok .RBRACKET st
        let st := if m then st else pySkipTo .RBRACKET st
        pure (some (.arrayInit inits), st)

/-- Embeds `PyParser::parseWrappedOrTuple`. -/
def pyParseWrappedOrTuple : Nat → PSt → Option (Option Ast × PSt)
  | 0, _ => none
  | fuel+1, st => do
    let (_, st) := pyMatchTok .LPAREN st
    let (rp, st) := pyMaybeConsume .RPAREN st
    if rp then pure (some (.tupleLit []), st)
    else if pyAhead st = .YIELD then do
      let (y, st) ← pyParseYieldExpr fuel st
      pure (pyCloseWrapped y st)
    else do
      let (test, st) ← pyParseTest fuel st
      match pyAhead st with
      | .FOR => do
        let (lc, st) ← pyParseListFor fuel (Ast.listCompre none []) st
        let lc := lcSetExpr test lc
        pure (pyCloseWrapped (some lc) st)
      | .COMMA => do
        let st := pyConsume st
        let inits := pyAddToList [] test
        let (inits, st) ←
          if pyIsTestAhead st then do
            let (more, st) ← pyParseTestList fuel st
            pure (inits ++ more, st)
          else pure (inits, st)
        let (m, st) := pyMatchTok .RPAREN st
        let st := if m then st else pySkipTo .RPAREN st
        pure (some (.tupleLit inits), st)
      | _ => pure (pyCloseWrapped test st)

/-- Embeds `PyParser::parseYieldExpr`. -/
def pyParseYieldExpr : Nat → PSt → Option (Option Ast × PSt)
  | 0, _ => none
  | fuel+1, st => do
    let (_, st) := pyMatchTok .YIELD st
    if pyIsTestAhead st then do
      let (es, st) ← pyParseTestList fuel st
      pure (some (.yieldExpr es), st)
    else pure (some (.yieldExpr []), st)

/-- Embeds `PyParser::parseLambdaDef`. -/
def pyParseLambdaDef : Nat → PSt → Option (Option Ast × PSt)
  | 0, _ => none
  | fuel+1, st => pyParseLambdaCore fuel false st

/-- Embeds `PyParser::parseOldLambdaDef`. -/
def pyParseOldLambdaDef : Nat → PSt → Option (Option Ast × PSt)
  | 0, _ => none
  | fuel+1, st => pyParseLambdaCore fuel true st

/-- Embeds `PyParser::parseLambdaCore` (`old` selects the body parser,
replacing the member-pointer argument). -/
def pyParseLambdaCore : Nat → Bool → PSt → Option (Option Ast × PSt)
  | 0, _, _ => none
  | fuel+1, old, st =>
    if pyAhead st ≠ .LAMBDA then pure (none, st)
    else do
      let (_, st) := pyMatchTok .LAMBDA st
      let (prm, st) ← pyParseVarArgsList fuel false st
      let (_, st) := pyMatchTok .COLON st
      let (body, st) ←
        if old then pyParseOldTest fuel st
        else pyParseTest fuel st
      pure (some (.funcLit prm (some (.exprStmt (pyAddToList [] body)))), st)

/-- Embeds `PyParser::parseDottedName`. -/
def pyParseDottedName : Nat → PSt → Option (Option Ast × PSt)
  | 0, _ => none
  | fuel+1, st => do
    let (n, st) ← pyParseName fuel st
    let (names, st) ← pyDottedNamesLoop fuel st (pyAddToList [] n)
    pure (some (.nestedName names), st)

/-- The `('.' NAME)*` loop of `parseDottedName` (no trailing dot). -/
def pyDottedNamesLoop : Nat → PSt → List Ast → Option (List Ast × PSt)
  | 0, _, _ => none
  | fuel+1, st, acc =>
    let (c, st) := pyMaybeConsume .DOT st
    if c then do
      let (n, st) ← pyParseName fuel st
      pyDottedNamesLoop fuel st (pyAddToList acc n)
    else pure (acc, st)

/-- Embeds `PyParser::parseName`: a `SimpleName` only when the match
succeeds, otherwise null. -/
def pyParseName : Nat → PSt → Option (Option Ast × PSt)
  | 0, _ => none
  | _fuel+1, st =>
    let (m, st) := pyMatchTok .IDENTIFIER st
    if m then pure (some (.simpleName st.lastLoc), st) else pure (none, st)

/-- Embeds `PyParser::parseStrLit`: adjacent string literals fold into a
`Concat` chain. -/
def pyParseStrLit : Nat → PSt → Option (Option Ast × PSt)
  | 0, _ => none
  | fuel+1, st =>
    if pyAhead st ≠ .STRING_LITERAL then pure (none, st)
    else
      let (_, st) := pyMatchTok .STRING_LITERAL st
      let s : Ast := .strLit st.lastLoc
      if pyAhead st = .STRING_LITERAL then do
        let (s2, st) ← pyParseStrLit fuel st
        pure (some (.bin .concat (some s) s2), st)
      else pure (some s, st)

end

/-- Embeds `PyParser::parse(lexer, context)`: skip blank `NEWLINE`s, parse
statements until `EOP`; when at least one statement was accumulated, wrap
them in a `Program` and hand it to the context (`takeAst`, the middle
component of the result), returning true; otherwise return false and hand
over nothing.  The non-null preconditions on the lexer and context are
facts of the embedding. -/
def pyParse (fuel : Nat) (toks : List Tok) : Option (Bool × Option Ast × PSt) := do
  let (stmts, st) ← pyParseTopLoop fuel (pyInit toks) []
  if stmts.isEmpty then pure (false, none, st)
  else pure (true, some (.program stmts), st)

/-- Helper for C9: the string-literal loop always stops on the 0 sentinel
or on the matching quote. -/
theorem lexStrLitLoop_exits (quote : Nat) (mayBreak : Bool) (cur : LexCursor) (ch : Nat) :
    (lexStrLitLoop quote mayBreak cur ch).2 = 0
    ∨ (lexStrLitLoop quote mayBreak cur ch).2 = quote := by
  have H : ∀ (m : Nat) (cur : LexCursor) (ch : Nat), lexMeasure cur ch ≤ m →
      (lexStrLitLoop quote mayBreak cur ch).2 = 0
      ∨ (lexStrLitLoop quote mayBreak cur ch).2 = quote := by
    intro m
    induction m with
    | zero =>
      intro cur ch hle
      have hch : ch = 0 := by
        by_contra hne
        unfold lexMeasure at hle
        rw [if_neg hne] at hle
        omega
      rw [lexStrLitLoop.eq_def, if_pos (Or.inl hch)]
      exact Or.inl hch
    | succ m ih =>
      intro cur ch hle
      rw [lexStrLitLoop.eq_def]
      by_cases h0 : ch = 0 ∨ ch = quote
      · rw [if_pos h0]
        exact h0
      · rw [if_neg h0]
        have hne : ch ≠ 0 := by tauto
        by_cases hb : ch = 92
        · rw [if_pos hb]
          apply ih
          have := lexMeasure_step2_lt cur ch hne
          omega
        · rw [if_neg hb]
          apply ih
          have := lexMeasure_step_lt cur ch hne
          omega
  exact H (lexMeasure cur ch) cur ch (le_refl _)

/-- C9: for every input buffer and entry character, `lexStrLit` terminates
(it is a total function, defined by well-founded recursion on the remaining
buffer) and returns `STRING_LITERAL`, leaving the diagnostics unchanged;
the loop only stops on the 0 sentinel or the matching quote, so an
unterminated-at-end-of-buffer string is indistinguishable from a properly
terminated one by the returned token kind. -/
theorem lexStrLit_total (cur : LexCursor) (ch quote : Nat) (mayBreak : Bool)
    (diags : List Diag) :
    (lexStrLit cur ch quote mayBreak diags).2.2.2 = Tok.STRING_LITERAL
    ∧ (lexStrLit cur ch quote mayBreak diags).2.2.1 = diags
    ∧ ((lexStrLitLoop quote mayBreak cur ch).2 = 0
        ∨ (lexStrLitLoop quote mayBreak cur ch).2 = quote) :=
  ⟨rfl, rfl, lexStrLitLoop_exits quote mayBreak cur ch⟩

/-- C7: the cursor invariant `buffStart <= curr <= eof` (here
`0 <= curr <= buf.length`) is established by `setBuffer` and preserved by
every cursor operation; `peekChar` is embedded as a pure function of the
cursor (so it cannot move it, and `consumeCharPeekNext`'s cursor is exactly
`consumeChar`'s); when the consumed character does not exist, `consumeChar`
leaves the cursor unchanged. -/
theorem lexCursor_invariant :
    (∀ bytes : List Nat, (setBuffer bytes).curr = 0
        ∧ (setBuffer bytes).curr ≤ (setBuffer bytes).buf.length)
    ∧ (∀ (c : LexCursor) (dist : Nat), c.curr ≤ c.buf.length →
        c.curr ≤ (consumeChar c dist).curr
          ∧ (consumeChar c dist).curr ≤ (consumeChar c dist).buf.length)
    ∧ (∀ (c : LexCursor) (dist : Nat), peekChar c dist = 0 → consumeChar c dist = c)
    ∧ (∀ (c : LexCursor) (dist : Nat), (consumeCharPeekNext c dist).1 = consumeChar c dist)
    ∧ (∀ (c : LexCursor) (dist : Nat), c.curr ≤ c.buf.length →
        (consumeCharPeekNext c dist).1.curr ≤ (consumeCharPeekNext c dist).1.buf.length) := by
  have hcons : ∀ (c : LexCursor) (dist : Nat), c.curr ≤ c.buf.length →
      c.curr ≤ (consumeChar c dist).curr
        ∧ (consumeChar c dist).curr ≤ (consumeChar c dist).buf.length := by
    intro c dist h
    unfold consumeChar
    by_cases hp : peekChar c dist = 0
    · rw [if_pos hp]
      exact ⟨le_refl _, h⟩
    · have hlt : c.curr + dist < c.buf.length := by
        by_contra hge
        exact hp (by unfold peekChar; rw [if_pos (by omega)])
      rw [if_neg hp]
      constructor
      · show c.curr ≤ c.curr + 1 + dist
        omega
      · show c.curr + 1 + dist ≤ c.buf.length
        omega
  refine ⟨fun bytes => ⟨rfl, by simp [setBuffer]⟩, hcons, ?_, ?_, ?_⟩
  · intro c dist hp
    unfold consumeChar
    rw [if_pos hp]
  · intro c dist
    rfl
  · intro c dist h
    exact (hcons c dist h).2

/-- C7 witness: the invariant theorem applied at a concrete cursor. -/
theorem lexCursor_invariant_witness :
    (setBuffer [48, 49]).curr ≤ (setBuffer [48, 49]).buf.length
    ∧ (consumeChar (setBuffer [48, 49]) 0).curr
        ≤ (consumeChar (setBuffer [48, 49]) 0).buf.length
    ∧ consumeChar (setBuffer []) 0 = setBuffer [] :=
  ⟨by decide,
   (lexCursor_invariant.2.1 (setBuffer [48, 49]) 0 (by decide)).2,
   lexCursor_invariant.2.2.1 (setBuffer []) 0 (by decide)⟩

/-- C8: `peekChar` is total: it returns the character `dist` ahead when
`curr + dist < eof` and the 0 sentinel otherwise (never reading out of
bounds); and when `peekChar(dist)` is nonzero, `consumeChar(dist)` advances
the cursor by exactly `1 + dist`. -/
theorem peekChar_total_consumeChar_advance (c : LexCursor) (dist : Nat) :
    (c.buf.length ≤ c.curr + dist → peekChar c dist = 0)
    ∧ (∀ h : c.curr + dist < c.buf.length,
        peekChar c dist = c.buf.get ⟨c.curr + dist, h⟩)
    ∧ (peekChar c dist ≠ 0 → (consumeChar c dist).curr = c.curr + 1 + dist) := by
  refine ⟨?_, ?_, ?_⟩
  · intro h
    unfold peekChar
    rw [if_pos h]
  · intro h
    unfold peekChar
    rw [if_neg (by omega)]
    simp [List.getD_eq_getElem?_getD, List.getElem?_eq_getElem h]
  · intro h
    unfold consumeChar
    rw [if_neg h]

/-- C8 witness: the theorem applied at a concrete cursor. -/
theorem peekChar_total_consumeChar_advance_witness :
    peekChar (setBuffer [65]) 0 = (setBuffer [65]).buf.get ⟨0, by decide⟩
    ∧ (consumeChar (setBuffer [65]) 0).curr = (setBuffer [65]).curr + 1 + 0
    ∧ peekChar (setBuffer [65]) 1 = 0 :=
  ⟨(peekChar_total_consumeChar_advance (setBuffer [65]) 0).2.1 (by decide),
   (peekChar_total_consumeChar_advance (setBuffer [65]) 0).2.2 (by decide),
   (peekChar_total_consumeChar_advance (setBuffer [65]) 1).1 (by decide)⟩

/-- C4 (code bug): evaluating `lexStrLit` at a string body holding the
escape `\` followed by byte 200 (neither a control nor a printable
character, as also recorded here) and at a body holding a bare newline with
`mayBreak = false`: in both runs the escape/newline is consumed, the
returned token is `STRING_LITERAL`, and the diagnostic list stays empty —
no `UnknownEscape` or `UnterminatedString` is ever reported, because both
error sites in the source are `// TODO: Error` comments. -/
theorem lexStrLit_no_diag_eval :
    lexStrLit (setBuffer [92, 200, 34]) 92 34 true []
      = ({ buf := [92, 200, 34], curr := 2 }, 34, [], Tok.STRING_LITERAL)
    ∧ isCntrlByte 200 = false
    ∧ isPrintByte 200 = false
    ∧ lexStrLit (setBuffer [10, 34]) 10 34 false []
      = ({ buf := [10, 34], curr := 1 }, 34, [], Tok.STRING_LITERAL) := by
  refine ⟨?_, by decide, by decide, ?_⟩
  · unfold lexStrLit
    rw [lexStrLitLoop.eq_def]
    norm_num [consumeCharPeekNext, consumeChar, peekChar, setBuffer]
    rw [lexStrLitLoop.eq_def]
    norm_num
  · unfold lexStrLit
    rw [lexStrLitLoop.eq_def]
    norm_num [consumeCharPeekNext, consumeChar, peekChar, setBuffer]
    rw [lexStrLitLoop.eq_def]
    norm_num

/-- C5 (code bug): evaluating `lexNumLit` on `0x)`, `0o)` and `0b)`
(a prefix with no digit of its kind following): the returned token is
`INVALID` in all three runs, but the diagnostic list stays empty — no
`InvalidNumericDigit` is reported, because the error site in the source is
a `// TODO: Error` comment. -/
theorem lexNumLit_invalid_eval :
    lexNumLit pyLikeTraits (setBuffer [48, 120, 41]) 48 []
      = ({ buf := [48, 120, 41], curr := 2 }, 41, [], Tok.INVALID)
    ∧ lexNumLit pyLikeTraits (setBuffer [48, 111, 41]) 48 []
      = ({ buf := [48, 111, 41], curr := 2 }, 41, [], Tok.INVALID)
    ∧ lexNumLit pyLikeTraits (setBuffer [48, 98, 41]) 48 []
      = ({ buf := [48, 98, 41], curr := 2 }, 41, [], Tok.INVALID) :=
  ⟨rfl, rfl, rfl⟩

/-- Helper for C1: on a stream of blank `NEWLINE`s only, the top-level loop
consumes them all and returns the accumulated statements unchanged. -/
theorem pyParseTopLoop_newlines (n : Nat) :
    ∀ (fuel : Nat) (st : PSt) (stmts : List Ast), n < fuel →
      st.toks = List.replicate n Tok.NEWLINE →
      ∃ st2, pyParseTopLoop fuel st stmts = some (stmts, st2) := by
  induction n with
  | zero =>
    intro fuel st stmts hf htoks
    obtain ⟨fuel, rfl⟩ : ∃ f, fuel = f + 1 := ⟨fuel - 1, by omega⟩
    have ha : pyAhead st = Tok.EOP := by
      simp [pyAhead, htoks]
    exact ⟨st, by simp [pyParseTopLoop, ha]⟩
  | succ n ih =>
    intro fuel st stmts hf htoks
    obtain ⟨fuel, rfl⟩ : ∃ f, fuel = f + 1 := ⟨fuel - 1, by omega⟩
    have ha : pyAhead st = Tok.NEWLINE := by
      simp [pyAhead, htoks, List.replicate_succ]
    have hstep : pyParseTopLoop (fuel+1) st stmts
        = pyParseTopLoop fuel (pyConsume st) stmts := by
      simp [pyParseTopLoop, ha]
    rw [hstep]
    apply ih fuel (pyConsume st) stmts (by omega)
    simp [pyConsume, ha, htoks, List.replicate_succ]

/-- C1: `parse` returns true iff at least one top-level statement was
accepted and a `Program` root was transferred to the context via `takeAst`
(the middle component of the result models the transferred root, `none`
when `takeAst` was never called); in particular, for empty input and for
input consisting only of `NEWLINE` tokens, `parse` returns false and no
root is handed over. -/
theorem pyParse_true_iff_ast :
    (∀ (fuel : Nat) (toks : List Tok) (b : Bool) (root : Option Ast) (st : PSt),
        pyParse fuel toks = some (b, root, st) →
          ((b = true ↔ root ≠ none)
            ∧ (b = true ↔ ∃ stmts, stmts ≠ [] ∧ root = some (Ast.program stmts))))
    ∧ (∀ n fuel : Nat, n < fuel →
        ∃ st, pyParse fuel (List.replicate n Tok.NEWLINE) = some (false, none, st)) := by
  constructor
  · intro fuel toks b root st h
    unfold pyParse at h
    cases hr : pyParseTopLoop fuel (pyInit toks) [] with
    | none => rw [hr] at h; simp at h
    | some p =>
      obtain ⟨stmts, st2⟩ := p
      rw [hr] at h
      by_cases he : stmts.isEmpty
      · simp [he] at h
        obtain ⟨hb, hroot, -⟩ := h
        subst hb
        subst hroot
        constructor
        · simp
        · simp
      · simp [he] at h
        obtain ⟨hb, hroot, -⟩ := h
        subst hb
        subst hroot
        constructor
        · simp
        · constructor
          · intro _
            refine ⟨stmts, ?_, rfl⟩
            simpa [List.isEmpty_iff] using he
          · intro _
            rfl
  · intro n fuel hf
    obtain ⟨st2, h2⟩ :=
      pyParseTopLoop_newlines n fuel (pyInit (List.replicate n Tok.NEWLINE)) [] hf rfl
    refine ⟨st2, ?_⟩
    unfold pyParse
    rw [h2]
    simp

/-- C1 witness: empty input at concrete fuel. -/
theorem pyParse_true_iff_ast_witness :
    pyParse 1 [] = some (false, none, pyInit [])
    ∧ (false = true ↔ (none : Option Ast) ≠ none)
    ∧ (∃ st, pyParse 1 (List.replicate 0 Tok.NEWLINE) = some (false, none, st)) :=
  ⟨rfl,
   (pyParse_true_iff_ast.1 1 [] false none (pyInit []) rfl).1,
   pyParse_true_iff_ast.2 0 1 (by decide)⟩

/-- C2 (code bug): evaluating the parser at `a - b + c` and `a * b + c`
(identifiers at stream positions 0, 2, 4).  Because `parseBinaryExpr`
recurses with `curPrec + 1` instead of the consumed operator's precedence,
the equal-precedence chain comes out right-nested, `Sub(a, Add(b, c))`
instead of the left-associative `Add(Sub(a, b), c)`; and in `a * b + c` the
lower-precedence `+` is nested deeper under `*`, `Mul(a, Add(b, c))`
instead of `Add(Mul(a, b), c)`. -/
theorem pyBinaryExpr_assoc_eval :
    (pyParse 32 [.IDENTIFIER, .MINUS, .IDENTIFIER, .PLUS, .IDENTIFIER, .NEWLINE]).map
        (fun r => r.2.1)
      = some (some (Ast.program [Ast.exprStmt [Ast.bin .sub
          (some (Ast.identExpr (some (Ast.simpleName 0))))
          (some (Ast.bin .add (some (Ast.identExpr (some (Ast.simpleName 2))))
            (some (Ast.identExpr (some (Ast.simpleName 4))))))]]))
    ∧ (pyParse 32 [.IDENTIFIER, .STAR, .IDENTIFIER, .PLUS, .IDENTIFIER, .NEWLINE]).map
        (fun r => r.2.1)
      = some (some (Ast.program [Ast.exprStmt [Ast.bin .mul
          (some (Ast.identExpr (some (Ast.simpleName 0))))
          (some (Ast.bin .add (some (Ast.identExpr (some (Ast.simpleName 2))))
            (some (Ast.identExpr (some (Ast.simpleName 4))))))]])) :=
  ⟨rfl, rfl⟩

/-- C3 counterexample: at `x = y = z` (identifiers at positions 0, 2, 4)
the parser produces the left-nested `Assign([Assign([x],[y])],[z])`, which
is not the right-associative chain the claim describes, in which the
intermediate right-hand side `y` would be the left side of the inner
assignment of `Assign([x],[Assign([y],[z])])`. -/
theorem pyExprStmt_not_right_assoc :
    ((pyParse 32 [.IDENTIFIER, .EQUAL, .IDENTIFIER, .EQUAL, .IDENTIFIER, .NEWLINE]).map
        fun r => r.2.1)
      = some (some (Ast.program [Ast.exprStmt [Ast.assignExpr
          [Ast.assignExpr [Ast.identExpr (some (Ast.simpleName 0))]
            [Ast.identExpr (some (Ast.simpleName 2))]]
          [Ast.identExpr (some (Ast.simpleName 4))]]]))
    ∧ Ast.assignExpr
        [Ast.assignExpr [Ast.identExpr (some (Ast.simpleName 0))]
          [Ast.identExpr (some (Ast.simpleName 2))]]
        [Ast.identExpr (some (Ast.simpleName 4))]
      ≠ Ast.assignExpr [Ast.identExpr (some (Ast.simpleName 0))]
          [Ast.assignExpr [Ast.identExpr (some (Ast.simpleName 2))]
            [Ast.identExpr (some (Ast.simpleName 4))]] :=
  ⟨rfl, by simp⟩

/-- C3 amended: a plain `=` chains left-nested: each further `=` wraps the
`Assign` built so far as the single element of the next `Assign`'s
left-hand list (for `e1 = e2 = e3` the tree is
`Assign([Assign([e1],[e2])],[e3])`), while an augmented-assign operator
produces exactly one `Assign` and stops the chain, leaving the rest of the
stream untouched (shown here for any continuation `rest`). -/
theorem pyExprStmt_left_nested_chain (rest : List Tok) :
    pyParseExprStmt 24 (pyInit ([.IDENTIFIER, .EQUAL, .IDENTIFIER, .EQUAL,
        .IDENTIFIER, .NEWLINE] ++ rest))
      = some (some (Ast.exprStmt [Ast.assignExpr
          [Ast.assignExpr [Ast.identExpr (some (Ast.simpleName 0))]
            [Ast.identExpr (some (Ast.simpleName 2))]]
          [Ast.identExpr (some (Ast.simpleName 4))]]),
        { toks := Tok.NEWLINE :: rest, pos := 5, lastLoc := 4, diags := [] })
    ∧ pyParseExprStmt 24 (pyInit ([.IDENTIFIER, .PLUS_EQUAL, .IDENTIFIER, .EQUAL,
        .IDENTIFIER, .NEWLINE] ++ rest))
      = some (some (Ast.exprStmt [Ast.assignExpr
          [Ast.identExpr (some (Ast.simpleName 0))]
          [Ast.identExpr (some (Ast.simpleName 2))]]),
        { toks := Tok.EQUAL :: Tok.IDENTIFIER :: Tok.NEWLINE :: rest, pos := 3,
          lastLoc := 2, diags := [] }) :=
  ⟨rfl, rfl⟩

/-- C6: in the clause loop of `parseTryStmt`, an `else` with no preceding
`except` clause or a second `else` is not accepted: the token is consumed,
an `UnexpectedToken` diagnostic is appended, and the loop continues with
the clauses unchanged; an `else` after at least one `except` (and no
earlier `else`) consumes `else : suite` without reporting at that step; and
a `finally` clause parses `: suite` and returns the try statement
immediately with the finally attached, so no further clause is parsed and
at most one finally is attached. -/
theorem pyTry_else_finally_discipline (fuel : Nat) (st : PSt) (body : Option Ast)
    (catchs : List Ast) (seenElse : Bool) :
    (pyAhead st = Tok.ELSE → (catchs = [] ∨ seenElse = true) →
        pyTryClauseLoop (fuel+1) st body catchs seenElse
          = pyTryClauseLoop fuel (pyFailMatch true st) body catchs seenElse
          ∧ (pyFailMatch true st).diags = st.diags ++ [Diag.UnexpectedToken])
    ∧ (pyAhead st = Tok.ELSE → catchs ≠ [] → seenElse = false →
        pyTryClauseLoop (fuel+1) st body catchs seenElse
          = (pyParseSuite fuel (pyMatchTok Tok.COLON (pyConsume st)).2).bind
              (fun r => pyTryClauseLoop fuel r.2 body catchs true))
    ∧ (pyAhead st = Tok.FINALLY →
        pyTryClauseLoop (fuel+1) st body catchs seenElse
          = (pyParseSuite fuel (pyMatchTok Tok.COLON (pyConsume st)).2).bind
              (fun r => some (some (Ast.tryStmt body catchs
                  (some (Ast.finallyClause r.1))), r.2))) := by
  have hdiag : (pyFailMatch true st).diags = st.diags ++ [Diag.UnexpectedToken] := by
    unfold pyFailMatch pyTrackReport pyConsume
    by_cases hc : pyAhead st = Tok.EOP <;> simp [hc]
  refine ⟨?_, ?_, ?_⟩
  · intro h hc
    refine ⟨?_, hdiag⟩
    rcases hc with hc | hc
    · subst hc
      simp [pyTryClauseLoop, h]
    · subst hc
      simp [pyTryClauseLoop, h]
  · intro h hc hs
    subst hs
    have he : catchs.isEmpty = false := by
      cases catchs
      · exact absurd rfl hc
      · rfl
    simp only [pyTryClauseLoop, h, he]
    rw [if_neg (by simp)]
    cases hps : pyParseSuite fuel (pyMatchTok Tok.COLON (pyConsume st)).2 with
    | none => simp [hps]
    | some r =>
      obtain ⟨a, b⟩ := r
      simp [hps]
  · intro h
    simp only [pyTryClauseLoop, h]
    cases hps : pyParseSuite fuel (pyMatchTok Tok.COLON (pyConsume st)).2 with
    | none => simp [hps]
    | some r =>
      obtain ⟨a, b⟩ := r
      simp [hps]

/-- C6 witness: the discipline theorem applied at concrete states: an
`else` with no catches, an `else` after one catch, and a `finally`. -/
theorem pyTry_else_finally_discipline_witness :
    pyAhead (pyInit [Tok.ELSE]) = Tok.ELSE
    ∧ (pyTryClauseLoop 3 (pyInit [Tok.ELSE]) none [] false
        = pyTryClauseLoop 2 (pyFailMatch true (pyInit [Tok.ELSE])) none [] false)
    ∧ (pyTryClauseLoop 3 (pyInit [Tok.ELSE, Tok.COLON, Tok.PASS, Tok.NEWLINE]) none
          [Ast.catchClause none none] false
        = (pyParseSuite 2 (pyMatchTok Tok.COLON
              (pyConsume (pyInit [Tok.ELSE, Tok.COLON, Tok.PASS, Tok.NEWLINE]))).2).bind
            (fun r => pyTryClauseLoop 2 r.2 none [Ast.catchClause none none] true))
    ∧ (pyTryClauseLoop 9 (pyInit [Tok.FINALLY, Tok.COLON, Tok.PASS, Tok.NEWLINE]) none [] false
        = (pyParseSuite 8 (pyMatchTok Tok.COLON
              (pyConsume (pyInit [Tok.FINALLY, Tok.COLON, Tok.PASS, Tok.NEWLINE]))).2).bind
            (fun r => some (some (Ast.tryStmt none []
                (some (Ast.finallyClause r.1))), r.2))) :=
  ⟨rfl,
   ((pyTry_else_finally_discipline 2 (pyInit [Tok.ELSE]) none [] false).1 rfl (Or.inl rfl)).1,
   (pyTry_else_finally_discipline 2 (pyInit [Tok.ELSE, Tok.COLON, Tok.PASS, Tok.NEWLINE]) none
      [Ast.catchClause none none] false).2.1 rfl (by simp) rfl,
   (pyTry_else_finally_discipline 8 (pyInit [Tok.FINALLY, Tok.COLON, Tok.PASS, Tok.NEWLINE])
      none [] false).2.2 rfl⟩

/-- C10: the target conversion of `parseForStmt` keeps exactly the
identifier expressions of the target list, in their relative order, as
`VarDecl`s (a `filterMap`), and every non-identifier target is dropped
without any diagnostic: parsing `for a, (b), c in xs: pass` yields a
`VarGroup` holding only `a` and `c` (positions 1 and 7) while the
diagnostic list stays empty. -/
theorem pyForStmt_targets_filter :
    (∀ es : List Ast, pyForTargets es
        = es.filterMap (fun e =>
            match e with
            | Ast.identExpr n => some (Ast.varDecl n)
            | _ => none))
    ∧ pyParseStmt 64 (pyInit [.FOR, .IDENTIFIER, .COMMA, .LPAREN, .IDENTIFIER, .RPAREN,
          .COMMA, .IDENTIFIER, .IN, .IDENTIFIER, .COLON, .PASS, .NEWLINE])
        = some (some (Ast.foreachStmt
            (some (Ast.varGroup [Ast.varDecl (some (Ast.simpleName 1)),
              Ast.varDecl (some (Ast.simpleName 7))]))
            (some (Ast.identExpr (some (Ast.simpleName 9))))
            (some Ast.emptyStmt)),
          { toks := [], pos := 13, lastLoc := 12, diags := [] }) := by
  constructor
  · intro es
    induction es with
    | nil => rfl
    | cons e es ih => cases e <;> simp [pyForTargets, List.filterMap_cons, ih]
  · rfl
